import Mathlib

/-!
# Event filter of the special-resource-operator (pkg/filter/filter.go)

A shallow embedding of the ownership classifier (IsSpecialResource, Owned), of the four
entry points of Predicate() (CreateFunc, UpdateFunc, DeleteFunc, GenericFunc) and of the
label propagator (SetLabel, SetSubResourceLabel) on unstructured objects.

The functions of the package read the package variable Mode, write log lines and call
two collaborators (lifecycle.UpdateDaemonSetPods, storage.DeleteConfigMapEntry).  They
are embedded as state-passing functions over World, which records Mode, the log and the
collaborator calls in the order they were issued.  The label propagator answers none when
the process was terminated by pkg/exit.
-/

set_option autoImplicit false

namespace Filter

/-! ## Data model -/

/-- One entry of metadata.ownerReferences (metav1.OwnerReference), as far as the package reads it. -/
structure OwnerReference where
  Kind : String
  Name : String
  UID : String
deriving DecidableEq, Repr

/-- A Go map from string to string, as an association list; the first entry of a key counts. -/
abbrev StringMap := List (String × String)

/-- The view of a client.Object that the package reads through its accessors.
`typeString` is reflect.TypeOf(obj).String(), `kind` is
obj.GetObjectKind().GroupVersionKind().Kind, `labels` is none for a nil map, and `dump`
is the text that fmt.Sprintf renders for the object with the verb %+v. -/
structure Object where
  typeString : String
  kind : String
  name : String
  Namespace : String
  labels : Option StringMap
  ownerReferences : List OwnerReference
  generation : Int
  resourceVersion : String
  selfLink : String
  dump : String
deriving DecidableEq, Repr

/-- The identity types.NamespacedName of the tracking record. -/
structure NamespacedName where
  Namespace : String
  Name : String
deriving DecidableEq, Repr

/-- One line written with log.Info: the message, then the values logged under Name and Type. -/
structure LogEntry where
  msg : String
  name : String
  type : String
deriving DecidableEq, Repr

/-- A call issued to a collaborator package, with its arguments. -/
inductive Call where
  | UpdateDaemonSetPods (obj : Object)
  | DeleteConfigMapEntry (key : Nat) (ins : NamespacedName)
deriving DecidableEq, Repr

/-- The collaborators of the package, which are not part of it: what the two outbound calls
answer (none is a nil error), the process environment, and the hash of pkg/hash. -/
structure Collaborators where
  UpdateDaemonSetPods : Object → Option String
  DeleteConfigMapEntry : Nat → NamespacedName → Option String
  Getenv : String → String
  FNV64a : String → Nat

/-- The state the package functions run in: the package variable Mode, the lines logged
so far, the warnings raised so far and the collaborator calls issued so far. -/
structure World where
  Mode : String
  log : List LogEntry
  warnings : List String
  calls : List Call
deriving DecidableEq, Repr

/-- The payload of a create event. -/
structure CreateEvent where
  Object : Object

/-- The payload of an update event. -/
structure UpdateEvent where
  ObjectOld : Object
  ObjectNew : Object

/-- The payload of a delete event. -/
structure DeleteEvent where
  Object : Object

/-- The payload of a generic event. -/
structure GenericEvent where
  Object : Object

/-! ## Package variables set by init -/

/-- The value init gives to sroGVK. -/
def sroGVK : String := "SpecialResource"

/-- The value init gives to owned. -/
def owned : String := "specialresource.openshift.io/owned"

/-! ## Library helpers -/

/-- Whether `p` is an initial segment of `s`. -/
def startsWith : List Char → List Char → Bool
  | _, [] => true
  | [], _ :: _ => false
  | c :: cs, d :: ds => c == d && startsWith cs ds

/-- Whether `sub` occurs in `s` at some position. -/
def containsChars : List Char → List Char → Bool
  | [], sub => startsWith [] sub
  | c :: cs, sub => startsWith (c :: cs) sub || containsChars cs sub

/-- The library function strings.Contains. -/
def stringsContains (s substr : String) : Bool :=
  containsChars s.data substr.data

/-- The lookup `_, found := m[key]` of a Go map: whether the key is present. -/
def mapFound : StringMap → String → Bool
  | [], _ => false
  | (k, _) :: rest, key => if k = key then true else mapFound rest key

/-- The call log.Info(msg, "Name", obj.GetName(), "Type", reflect.TypeOf(obj).String()). -/
def logInfo (w : World) (msg : String) (obj : Object) : World :=
  { w with log := w.log ++ [⟨msg, obj.name, obj.typeString⟩] }

/-- Modelled from the spec: warn.OnError of pkg/warn, which is not among the sources; a
non-nil error is logged as a warning and swallowed, a nil error does nothing. -/
def warnOnError (w : World) (err : Option String) : World :=
  match err with
  | none => w
  | some e => { w with warnings := w.warnings ++ [e] }

/-- Records that a collaborator was called. -/
def recordCall (w : World) (c : Call) : World :=
  { w with calls := w.calls ++ [c] }

/-! ## The classifier -/

/-- The loop of Owned over the owner references: whether some owner has Kind sroGVK. -/
def ownerLoop : List OwnerReference → Bool
  | [] => false
  | owner :: rest => if owner.Kind = sroGVK then true else ownerLoop rest

/-- The function Owned. -/
def Owned (w : World) (obj : Object) : Bool × World :=
  if ownerLoop obj.ownerReferences then
    (true, logInfo w (w.Mode ++ " Owned (sroGVK)") obj)
  else
    match obj.labels with
    | some labels =>
      if mapFound labels owned then
        (true, logInfo w (w.Mode ++ " Owned (label)") obj)
      else
        (false, w)
    | none => (false, w)

/-- The function IsSpecialResource. -/
def IsSpecialResource (w : World) (obj : Object) : Bool × World :=
  let kind := obj.kind
  if kind = sroGVK then
    (true, logInfo w (w.Mode ++ " IsSpecialResource (sroGVK)") obj)
  else
    let t := obj.typeString
    if stringsContains t sroGVK then
      (true, logInfo w (w.Mode ++ " IsSpecialResource (reflect)") obj)
    else
      let o := Owned w obj
      if o.1 then
        (false, o.2)
      else
        let w1 := o.2
        let selfLink := obj.selfLink
        if stringsContains selfLink "/apis/sro.openshift.io/v" then
          (true, logInfo w1 (w1.Mode ++ " IsSpecialResource (selflink)") obj)
        else if kind = "" then
          let objstr := obj.dump
          if stringsContains objstr "sro.openshift.io/v" then
            (true, logInfo w1 (w1.Mode ++ " IsSpecialResource (contains)") obj)
          else
            (false, w1)
        else
          (false, w1)

/-! ## The four entry points of Predicate() -/

/-- The field CreateFunc of Predicate(). -/
def CreateFunc (w : World) (e : CreateEvent) : Bool × World :=
  let w0 := { w with Mode := "CREATE" }
  let obj := e.Object
  let s := IsSpecialResource w0 obj
  if s.1 then
    (true, s.2)
  else
    let o := Owned s.2 obj
    if o.1 then
      (true, o.2)
    else
      (false, o.2)

/-- The field UpdateFunc of Predicate(). -/
def UpdateFunc (c : Collaborators) (w : World) (e : UpdateEvent) : Bool × World :=
  let w0 := { w with Mode := "UPDATE" }
  if e.ObjectOld.generation = e.ObjectNew.generation then
    (false, w0)
  else if e.ObjectOld.resourceVersion = e.ObjectNew.resourceVersion then
    (false, w0)
  else
    let obj := e.ObjectNew
    let s := IsSpecialResource w0 obj
    if s.1 then
      (true, logInfo s.2 (s.2.Mode ++ " IsSpecialResource GenerationChanged") obj)
    else
      let o := Owned s.2 obj
      if o.1 then
        let w1 := logInfo o.2 (o.2.Mode ++ " Owned GenerationChanged") obj
        if obj.typeString = "*v1.DaemonSet" then
          let err := c.UpdateDaemonSetPods obj
          (true, warnOnError (recordCall w1 (Call.UpdateDaemonSetPods obj)) err)
        else
          (true, w1)
      else
        (false, o.2)

/-- The field DeleteFunc of Predicate(). -/
def DeleteFunc (c : Collaborators) (w : World) (e : DeleteEvent) : Bool × World :=
  let w0 := { w with Mode := "DELETE" }
  let obj := e.Object
  let s := IsSpecialResource w0 obj
  if s.1 then
    (true, s.2)
  else
    let o := Owned s.2 obj
    if o.1 then
      let ins : NamespacedName :=
        ⟨c.Getenv "OPERATOR_NAMESPACE", "special-resource-lifecycle"⟩
      let key := c.FNV64a (obj.Namespace ++ obj.name)
      let err := c.DeleteConfigMapEntry key ins
      (true, warnOnError (recordCall o.2 (Call.DeleteConfigMapEntry key ins)) err)
    else
      (false, o.2)

/-- The field GenericFunc of Predicate(). -/
def GenericFunc (w : World) (e : GenericEvent) : Bool × World :=
  let w0 := { w with Mode := "GENERIC" }
  let obj := e.Object
  let s := IsSpecialResource w0 obj
  if s.1 then
    (true, s.2)
  else
    let o := Owned s.2 obj
    if o.1 then
      (true, o.2)
    else
      (false, o.2)

/-! ## Concrete objects used in the examples -/

/-- Collaborators whose two outbound calls both succeed. -/
def quietCollaborators : Collaborators :=
  ⟨fun _ => none, fun _ _ => none, fun _ => "openshift-special-resource-operator", fun _ => 0⟩

/-- Collaborators whose two outbound calls both fail. -/
def failingCollaborators : Collaborators :=
  ⟨fun _ => some "pods not updated", fun _ _ => some "entry not deleted",
    fun _ => "openshift-special-resource-operator", fun _ => 0⟩

/-- A world in which nothing has happened yet. -/
def freshWorld : World := ⟨"", [], [], []⟩

/-- A Pod at generation 3 and resourceVersion 10. -/
def podOld : Object :=
  ⟨"*v1.Pod", "Pod", "p", "ns", none, [], 3, "10", "", "&Pod"⟩

/-- The same Pod at generation 3 and resourceVersion 15. -/
def podNew : Object :=
  ⟨"*v1.Pod", "Pod", "p", "ns", none, [], 3, "15", "", "&Pod"⟩

/-- A ConfigMap with an empty label map and one owner reference of kind SpecialResource. -/
def ownedConfigMap : Object :=
  ⟨"*v1.ConfigMap", "ConfigMap", "cm", "ns", some [], [⟨"SpecialResource", "sr", "u1"⟩],
    1, "1", "", "&ConfigMap"⟩

/-- A SpecialResource at generation 1 and resourceVersion 7, carrying the owned label. -/
def specialOld : Object :=
  ⟨"*unstructured.Unstructured", "SpecialResource", "sr", "ns",
    some [("specialresource.openshift.io/owned", "true")], [], 1, "7", "", "&SpecialResource"⟩

/-- The same SpecialResource at generation 2, its resourceVersion still 7. -/
def specialNew : Object :=
  ⟨"*unstructured.Unstructured", "SpecialResource", "sr", "ns",
    some [("specialresource.openshift.io/owned", "true")], [], 2, "7", "", "&SpecialResource"⟩

/-- An earlier revision of ownedConfigMap: generation 0, resourceVersion 0, no owner yet. -/
def configMapOld : Object :=
  ⟨"*v1.ConfigMap", "ConfigMap", "cm", "ns", some [], [], 0, "0", "", "&ConfigMap"⟩

/-- An object of kind SpecialResource that also carries the owned label, an owner reference
of kind SpecialResource somewhere in the list, and a self-link outside the sro group. -/
def labelledSpecial : Object :=
  ⟨"*unstructured.Unstructured", "SpecialResource", "sr", "ns",
    some [("app", "x"), ("specialresource.openshift.io/owned", "false")],
    [⟨"Deployment", "d", "u0"⟩, ⟨"SpecialResource", "parent", "u1"⟩], 4, "40",
    "/api/v1/namespaces/ns/pods/sr", "&SpecialResource"⟩

/-- An owned object without a kind whose self-link and dump both name the sro group. -/
def ownedUntyped : Object :=
  ⟨"*unstructured.Unstructured", "", "x", "ns",
    some [("specialresource.openshift.io/owned", "")], [], 1, "1",
    "/apis/sro.openshift.io/v1beta1/namespaces/ns/things/x",
    "&\x7bObject:map[apiVersion:sro.openshift.io/v1beta1]\x7d"⟩

/-- A typed SpecialResource whose GroupVersionKind is not set, carrying the owned label. -/
def ownedTypedSpecial : Object :=
  ⟨"*v1beta1.SpecialResource", "", "sr", "ns",
    some [("specialresource.openshift.io/owned", "true")], [], 1, "1", "", "&SpecialResource"⟩

/-- An owned typed DaemonSet at generation 1 and resourceVersion 5. -/
def daemonSetOld : Object :=
  ⟨"*v1.DaemonSet", "DaemonSet", "ds", "ns",
    some [("specialresource.openshift.io/owned", "true")], [], 1, "5", "", "&DaemonSet"⟩

/-- The same DaemonSet at generation 2 and resourceVersion 6. -/
def daemonSetNew : Object :=
  ⟨"*v1.DaemonSet", "DaemonSet", "ds", "ns",
    some [("specialresource.openshift.io/owned", "true")], [], 2, "6", "", "&DaemonSet"⟩

/-- An example of the hash of pkg/hash: FNV-1a with 64 bits over the character codes. -/
def fnv1a (s : String) : Nat :=
  s.data.foldl (fun h ch => (Nat.xor h ch.toNat * 1099511628211) % 18446744073709551616)
    14695981039346656037

/-- Collaborators that hash with fnv1a, run in the namespace sro and fail both calls. -/
def hashingCollaborators : Collaborators :=
  ⟨fun _ => some "pods not updated", fun _ _ => some "entry not deleted", fun name =>
    if name = "OPERATOR_NAMESPACE" then "sro" else "", fnv1a⟩

/-- An owned Pod named foo in the namespace ns. -/
def ownedFoo : Object :=
  ⟨"*v1.Pod", "Pod", "foo", "ns", some [("specialresource.openshift.io/owned", "true")], [],
    1, "1", "", "&Pod"⟩

/-- An owned Pod named c in the namespace ab. -/
def ownedInAb : Object :=
  ⟨"*v1.Pod", "Pod", "c", "ab", some [("specialresource.openshift.io/owned", "true")], [],
    1, "1", "", "&Pod"⟩

/-- An owned Pod named bc in the namespace a. -/
def ownedInA : Object :=
  ⟨"*v1.Pod", "Pod", "bc", "a", some [("specialresource.openshift.io/owned", "true")], [],
    1, "1", "", "&Pod"⟩

/-- An owned DaemonSet held as an unstructured object, at generation 2 and
resourceVersion 6. -/
def unstructuredDaemonSet : Object :=
  ⟨"*unstructured.Unstructured", "DaemonSet", "ds", "ns",
    some [("specialresource.openshift.io/owned", "true")], [], 2, "6", "", "&DaemonSet"⟩

/-- Whether a call is one to lifecycle.UpdateDaemonSetPods. -/
def isUpdateDaemonSetPods : Call → Bool
  | Call.UpdateDaemonSetPods _ => true
  | Call.DeleteConfigMapEntry _ _ => false

/-- Whether a call is one to storage.DeleteConfigMapEntry. -/
def isDeleteConfigMapEntry : Call → Bool
  | Call.UpdateDaemonSetPods _ => false
  | Call.DeleteConfigMapEntry _ _ => true

/-- The removal DeleteFunc issues for an object: the key is the hash of namespace then
name, the identity is the operator namespace with the name special-resource-lifecycle. -/
def removalCall (c : Collaborators) (obj : Object) : Call :=
  Call.DeleteConfigMapEntry (c.FNV64a (obj.Namespace ++ obj.name))
    ⟨c.Getenv "OPERATOR_NAMESPACE", "special-resource-lifecycle"⟩

/-! ## Unstructured objects and the label propagator -/

/-- A JSON value as the content of an unstructured object holds it; null is the nil
interface value, a float is kept by its bits. -/
inductive Value where
  | null
  | bool (b : Bool)
  | int (n : Int)
  | float (bits : Nat)
  | str (s : String)
  | list (xs : List Value)
  | map (m : List (String × Value))

/-- A Go map from string to JSON values, as an association list; the first entry of a key
counts. -/
abbrev ValueMap := List (String × Value)

/-- The type unstructured.Unstructured; a nil Object is read like an empty one. -/
structure Unstructured where
  Object : ValueMap

/-- The three answers of the nested accessors: (value, true, nil), (nil, false, nil) and
(nil, false, err). -/
inductive Nested (α : Type) where
  | found (v : α)
  | notFound
  | error

/-- Whether a nested accessor answered with found true and a nil error. -/
def Nested.isFound {α : Type} : Nested α → Bool
  | Nested.found _ => true
  | Nested.notFound => false
  | Nested.error => false

/-- The read `v, ok := m[key]` of a Go map. -/
def mapGet {α : Type} : List (String × α) → String → Option α
  | [], _ => none
  | (k, v) :: rest, key => if k = key then some v else mapGet rest key

/-- The write `m[key] = v` of a Go map: an entry of the key is replaced, else one is added. -/
def mapSet {α : Type} : List (String × α) → String → α → List (String × α)
  | [], key, v => [(key, v)]
  | (k, x) :: rest, key, v =>
    if k = key then (k, v) :: rest else (k, x) :: mapSet rest key v

/-- The library function unstructured.NestedFieldNoCopy, started at a value: it walks the
fields, answers not found at a nil value or a missing key, and an error at a value that is
not a map. -/
def NestedFieldNoCopy : Value → List String → Nested Value
  | val, [] => Nested.found val
  | Value.null, _ :: _ => Nested.notFound
  | Value.map m, field :: rest =>
    match mapGet m field with
    | some v => NestedFieldNoCopy v rest
    | none => Nested.notFound
  | _, _ :: _ => Nested.error

/-- The library function nestedMapNoCopy: the nested field, which has to be a map. -/
def nestedMapNoCopy (obj : ValueMap) (fields : List String) : Nested ValueMap :=
  match NestedFieldNoCopy (Value.map obj) fields with
  | Nested.found (Value.map m) => Nested.found m
  | Nested.found _ => Nested.error
  | Nested.notFound => Nested.notFound
  | Nested.error => Nested.error

/-- The library function unstructured.NestedMap; its deep copy of the map is the map. -/
def NestedMap (obj : ValueMap) (fields : List String) : Nested ValueMap :=
  nestedMapNoCopy obj fields

/-- The conversion loop of NestedStringMap: every value has to be a string. -/
def toStringMap : ValueMap → Option StringMap
  | [] => some []
  | (k, Value.str s) :: rest =>
    match toStringMap rest with
    | some m => some ((k, s) :: m)
    | none => none
  | _ :: _ => none

/-- The library function unstructured.NestedStringMap. -/
def NestedStringMap (obj : ValueMap) (fields : List String) : Nested StringMap :=
  match nestedMapNoCopy obj fields with
  | Nested.found m =>
    match toStringMap m with
    | some strMap => Nested.found strMap
    | none => Nested.error
  | Nested.notFound => Nested.notFound
  | Nested.error => Nested.error

/-- The library function setNestedFieldNoCopy, none for its error: it walks all fields but
the last through maps, creates the ones that are missing, fails at a value that is not a
map, and writes the value under the last field.  It changes nothing when it fails. -/
def setNestedFieldNoCopy (value : Value) : List String → ValueMap → Option ValueMap
  | [], _ => none
  | [field], m => some (mapSet m field value)
  | field :: f2 :: rest, m =>
    match mapGet m field with
    | some (Value.map valMap) =>
      match setNestedFieldNoCopy value (f2 :: rest) valMap with
      | some n => some (mapSet m field (Value.map n))
      | none => none
    | some _ => none
    | none =>
      match setNestedFieldNoCopy value (f2 :: rest) [] with
      | some n => some (mapSet m field (Value.map n))
      | none => none

/-- The library function unstructured.SetNestedMap; its deep copy of the map is the map. -/
def SetNestedMap (obj : ValueMap) (value : ValueMap) (fields : List String) :
    Option ValueMap :=
  setNestedFieldNoCopy (Value.map value) fields obj

/-- The conversion of SetNestedStringMap from a string map to a map of values. -/
def ofStringMap (m : StringMap) : ValueMap :=
  m.map (fun kv => (kv.1, Value.str kv.2))

/-- The library function unstructured.SetNestedStringMap. -/
def SetNestedStringMap (obj : ValueMap) (value : StringMap) (fields : List String) :
    Option ValueMap :=
  setNestedFieldNoCopy (Value.map (ofStringMap value)) fields obj

/-- The method GetKind: the string under kind, or the empty string. -/
def GetKind (u : Unstructured) : String :=
  match NestedFieldNoCopy (Value.map u.Object) ["kind"] with
  | Nested.found (Value.str s) => s
  | _ => ""

/-- The method GetLabels: the string map under metadata.labels, nil unless it was found. -/
def GetLabels (u : Unstructured) : Option StringMap :=
  match NestedStringMap u.Object ["metadata", "labels"] with
  | Nested.found m => some m
  | _ => none

/-- The method SetLabels with a map that is not nil: it writes the map under
metadata.labels and drops the error of the write, so on an error the object stays as it is. -/
def SetLabels (u : Unstructured) (labels : StringMap) : Unstructured :=
  match SetNestedStringMap u.Object labels ["metadata", "labels"] with
  | some o => ⟨o⟩
  | none => u

/-- The read `labels[key]` on what GetLabels answered; a nil map has no entries. -/
def labelValue (labels : Option StringMap) (key : String) : Option String :=
  match labels with
  | some m => mapGet m key
  | none => none

/-- Modelled from the spec: exit.OnErrorOrNotFound of pkg/exit, which is not among the
sources; the process terminates when found is false or the error is not nil.  The answer
is none when the process terminated, else what was found. -/
def OnErrorOrNotFound {α : Type} : Nested α → Option α
  | Nested.found v => some v
  | Nested.notFound => none
  | Nested.error => none

/-- Modelled from the spec: exit.OnError of pkg/exit, which is not among the sources; the
process terminates when the error is not nil.  The answer is none when the process
terminated, else the result that came with the nil error. -/
def OnError {α : Type} : Option α → Option α
  | some v => some v
  | none => none

/-- The path of the labels of the pod template. -/
def templateLabels : List String := ["spec", "template", "metadata", "labels"]

/-- The call log.Info(msg) without keys and values. -/
def logLine (w : World) (msg : String) : World :=
  { w with log := w.log ++ [⟨msg, "", ""⟩] }

/-- The function SetSubResourceLabel; none when the process terminated. -/
def SetSubResourceLabel (w : World) (obj : Unstructured) : Option (Unstructured × World) :=
  let afterTemplate : Option Unstructured :=
    if GetKind obj = "DaemonSet" ∨ GetKind obj = "Deployment" ∨
        GetKind obj = "StatefulSet" then
      match OnErrorOrNotFound (NestedMap obj.Object templateLabels) with
      | none => none
      | some labels =>
        let labels := mapSet labels owned (Value.str "true")
        match OnError (SetNestedMap obj.Object labels templateLabels) with
        | none => none
        | some o => some ⟨o⟩
    else
      some obj
  match afterTemplate with
  | none => none
  | some obj1 =>
    if GetKind obj1 = "BuildConfig" then
      some (obj1, logLine w "TODO: how to set label ownership for Builds and related Pods")
    else
      some (obj1, w)

/-- The function SetLabel; none when the process terminated. -/
def SetLabel (w : World) (obj : Unstructured) : Option (Unstructured × World) :=
  let labels : StringMap :=
    match GetLabels obj with
    | some l => l
    | none => []
  let labels := mapSet labels owned "true"
  let obj1 := SetLabels obj labels
  SetSubResourceLabel w obj1

/-- Whether the key metadata is missing or holds a map, so that SetLabels can write. -/
def metadataWritable (obj : Unstructured) : Bool :=
  match mapGet obj.Object "metadata" with
  | none => true
  | some (Value.map _) => true
  | some _ => false

/-- Whether the kind is one of the three with a pod template. -/
def hasPodTemplate (obj : Unstructured) : Bool :=
  decide (GetKind obj = "DaemonSet" ∨ GetKind obj = "Deployment" ∨
    GetKind obj = "StatefulSet")

/-- A Deployment without any labels: none on the object, none on the pod template. -/
def bareDeployment : Unstructured :=
  ⟨[("apiVersion", Value.str "apps/v1"), ("kind", Value.str "Deployment"),
    ("metadata", Value.map [("name", Value.str "d")]),
    ("spec", Value.map [("replicas", Value.int 1),
      ("template", Value.map [("metadata", Value.map [("name", Value.str "p")])])])]⟩

/-- A Deployment without labels of its own whose pod template has an empty label map. -/
def freshDeployment : Unstructured :=
  ⟨[("apiVersion", Value.str "apps/v1"), ("kind", Value.str "Deployment"),
    ("metadata", Value.map [("name", Value.str "d")]),
    ("spec", Value.map [("replicas", Value.int 1),
      ("template", Value.map [("metadata", Value.map [("labels", Value.map [])])])])]⟩

/-- A DaemonSet with a label app and a marker set to false on the object and on the pod
template. -/
def markedDaemonSet : Unstructured :=
  ⟨[("kind", Value.str "DaemonSet"),
    ("metadata", Value.map [("labels", Value.map
      [("specialresource.openshift.io/owned", Value.str "false"), ("app", Value.str "x")])]),
    ("spec", Value.map [("template", Value.map [("metadata", Value.map [("labels",
      Value.map [("app", Value.str "x"),
        ("specialresource.openshift.io/owned", Value.str "false")])])])])]⟩

/-- A ConfigMap without labels. -/
def plainConfigMap : Unstructured :=
  ⟨[("kind", Value.str "ConfigMap"), ("metadata", Value.map [("name", Value.str "cm")]),
    ("data", Value.map [("k", Value.str "v")])]⟩

/-- A ConfigMap whose key metadata holds null, as a manifest with an empty metadata gives. -/
def nullMetadataConfigMap : Unstructured :=
  ⟨[("kind", Value.str "ConfigMap"), ("metadata", Value.null),
    ("data", Value.map [("k", Value.str "v")])]⟩

/-- The view of nullMetadataConfigMap as a client.Object: no labels, no owner references. -/
def nullMetadataView : Object :=
  ⟨"*unstructured.Unstructured", "ConfigMap", "", "", none, [], 0, "", "", "&ConfigMap"⟩

/-- A BuildConfig with an output section. -/
def buildConfig : Unstructured :=
  ⟨[("kind", Value.str "BuildConfig"), ("metadata", Value.map [("name", Value.str "b")]),
    ("spec", Value.map [("output", Value.map [("to", Value.map
      [("kind", Value.str "ImageStreamTag")])])])]⟩

/-! ## Summaries of the classifier, used in the proofs -/

/-- What Owned answers, as a function of the object alone. -/
def ownedValue (obj : Object) : Bool :=
  ownerLoop obj.ownerReferences ||
    (match obj.labels with
     | some labels => mapFound labels owned
     | none => false)

/-- What IsSpecialResource answers, as a function of the object alone. -/
def specialValue (obj : Object) : Bool :=
  decide (obj.kind = sroGVK) || stringsContains obj.typeString sroGVK ||
    (!ownedValue obj &&
      (stringsContains obj.selfLink "/apis/sro.openshift.io/v" ||
        (decide (obj.kind = "") && stringsContains obj.dump "sro.openshift.io/v")))

/-- The label map SetLabel writes: what GetLabels answered, or an empty map, with the
marker set. -/
def markedLabels (obj : Unstructured) : StringMap :=
  mapSet ((GetLabels obj).getD []) owned "true"

/-- The object after the first half of SetLabel, before SetSubResourceLabel. -/
def withTopLabel (obj : Unstructured) : Unstructured :=
  SetLabels obj (markedLabels obj)

/-- The ConfigMap plainConfigMap after SetLabel. -/
def markedConfigMap : Unstructured :=
  ⟨[("kind", Value.str "ConfigMap"),
    ("metadata", Value.map [("name", Value.str "cm"),
      ("labels", Value.map [("specialresource.openshift.io/owned", Value.str "true")])]),
    ("data", Value.map [("k", Value.str "v")])]⟩

/-- The view of markedConfigMap as a client.Object. -/
def markedConfigMapView : Object :=
  ⟨"*unstructured.Unstructured", "ConfigMap", "cm", "",
    some [("specialresource.openshift.io/owned", "true")], [], 0, "", "", "&ConfigMap"⟩

/-- The DaemonSet markedDaemonSet after SetLabel: both markers read true, app is kept. -/
def markedDaemonSetDone : Unstructured :=
  ⟨[("kind", Value.str "DaemonSet"),
    ("metadata", Value.map [("labels", Value.map
      [("specialresource.openshift.io/owned", Value.str "true"), ("app", Value.str "x")])]),
    ("spec", Value.map [("template", Value.map [("metadata", Value.map [("labels",
      Value.map [("app", Value.str "x"),
        ("specialresource.openshift.io/owned", Value.str "true")])])])])]⟩

/-- The value a nested accessor found, nil unless it was found. -/
def Nested.value {α : Type} : Nested α → Option α
  | Nested.found v => some v
  | Nested.notFound => none
  | Nested.error => none

/-- Whether metadata.labels, where it is a map, holds strings only, so that GetLabels can
read it. -/
def labelsAreStrings (obj : Unstructured) : Bool :=
  match nestedMapNoCopy obj.Object ["metadata", "labels"] with
  | Nested.found m => (toStringMap m).isSome
  | Nested.notFound => true
  | Nested.error => true

/-- A ConfigMap whose labels hold a string under app and a number under n, as a manifest
with an unquoted number gives. -/
def mixedLabelsConfigMap : Unstructured :=
  ⟨[("kind", Value.str "ConfigMap"),
    ("metadata", Value.map [("name", Value.str "cm"),
      ("labels", Value.map [("app", Value.str "x"), ("n", Value.int 1)])]),
    ("data", Value.map [("k", Value.str "v")])]⟩

/-! ## Facts about the helpers -/

theorem startsWith_iff (s p : List Char) : startsWith s p = true ↔ p <+: s := by
  induction s generalizing p with
  | nil => cases p <;> simp [startsWith]
  | cons c cs ih =>
    cases p with
    | nil => simp [startsWith]
    | cons d ds =>
      simp [startsWith, ih, List.cons_prefix_cons]
      intro _; exact eq_comm

theorem containsChars_iff (s p : List Char) : containsChars s p = true ↔ p <:+: s := by
  induction s with
  | nil => simp [containsChars, startsWith_iff]
  | cons c cs ih =>
    simp only [containsChars, Bool.or_eq_true, startsWith_iff, ih]
    rw [List.infix_cons_iff]

/-- The embedded strings.Contains holds exactly when the second string is a contiguous
part of the first. -/
theorem stringsContains_iff (s substr : String) :
    stringsContains s substr = true ↔ substr.data <:+: s.data :=
  containsChars_iff s.data substr.data

theorem ownerLoop_iff (refs : List OwnerReference) :
    ownerLoop refs = true ↔ ∃ o ∈ refs, o.Kind = sroGVK := by
  induction refs with
  | nil => simp [ownerLoop]
  | cons o rest ih =>
    by_cases h : o.Kind = sroGVK
    · simp [ownerLoop, h]
    · simp [ownerLoop, h, ih]

theorem mapFound_iff (m : StringMap) (key : String) :
    mapFound m key = true ↔ ∃ v, (key, v) ∈ m := by
  induction m with
  | nil => simp [mapFound]
  | cons kv rest ih =>
    obtain ⟨k, v⟩ := kv
    by_cases h : k = key
    · subst h
      simp only [mapFound, if_true, true_iff]
      exact ⟨v, List.mem_cons_self _ _⟩
    · have h2 : ¬ key = k := fun e => h e.symm
      simp [mapFound, h, h2, ih]

theorem Owned_fst (w : World) (obj : Object) : (Owned w obj).1 = ownedValue obj := by
  unfold Owned ownedValue
  cases h1 : ownerLoop obj.ownerReferences with
  | true => simp
  | false =>
    cases h2 : obj.labels with
    | none => simp
    | some m => cases h3 : mapFound m owned <;> simp [h3]

/-- Owned changes nothing in the world but the log, to which it only appends. -/
theorem Owned_snd (w : World) (obj : Object) :
    ∃ l, (Owned w obj).2 = { w with log := w.log ++ l } := by
  unfold Owned
  split
  · exact ⟨_, rfl⟩
  · split
    · split
      · exact ⟨_, rfl⟩
      · exact ⟨[], by simp⟩
    · exact ⟨[], by simp⟩

theorem Owned_calls (w : World) (obj : Object) : (Owned w obj).2.calls = w.calls := by
  obtain ⟨l, h⟩ := Owned_snd w obj
  rw [h]

theorem Owned_Mode (w : World) (obj : Object) : (Owned w obj).2.Mode = w.Mode := by
  obtain ⟨l, h⟩ := Owned_snd w obj
  rw [h]

theorem Owned_warnings (w : World) (obj : Object) :
    (Owned w obj).2.warnings = w.warnings := by
  obtain ⟨l, h⟩ := Owned_snd w obj
  rw [h]

theorem IsSpecialResource_fst (w : World) (obj : Object) :
    (IsSpecialResource w obj).1 = specialValue obj := by
  unfold IsSpecialResource specialValue
  simp only [Owned_fst]
  by_cases hk : obj.kind = sroGVK
  · simp [hk]
  · cases ht : stringsContains obj.typeString sroGVK with
    | true => simp [hk]
    | false =>
      cases ho : ownedValue obj with
      | true => simp [hk]
      | false =>
        cases hs : stringsContains obj.selfLink "/apis/sro.openshift.io/v" with
        | true => simp [hk]
        | false =>
          by_cases he : obj.kind = ""
          · have hk2 : ¬ "" = sroGVK := fun e => hk (he.trans e)
            cases hd : stringsContains obj.dump "sro.openshift.io/v" <;> simp [he, hk2, hd]
          · simp [hk, he]

/-- IsSpecialResource changes nothing in the world but the log, to which it only appends. -/
theorem IsSpecialResource_snd (w : World) (obj : Object) :
    ∃ l, (IsSpecialResource w obj).2 = { w with log := w.log ++ l } := by
  obtain ⟨l, h⟩ := Owned_snd w obj
  unfold IsSpecialResource
  simp only
  split
  · exact ⟨_, rfl⟩
  · split
    · exact ⟨_, rfl⟩
    · split
      · exact ⟨l, h⟩
      · split
        · exact ⟨l ++ _, by rw [h]; simp [logInfo]; rfl⟩
        · split
          · split
            · exact ⟨l ++ _, by rw [h]; simp [logInfo]; rfl⟩
            · exact ⟨l, h⟩
          · exact ⟨l, h⟩

theorem IsSpecialResource_calls (w : World) (obj : Object) :
    (IsSpecialResource w obj).2.calls = w.calls := by
  obtain ⟨l, h⟩ := IsSpecialResource_snd w obj
  rw [h]

theorem IsSpecialResource_Mode (w : World) (obj : Object) :
    (IsSpecialResource w obj).2.Mode = w.Mode := by
  obtain ⟨l, h⟩ := IsSpecialResource_snd w obj
  rw [h]

theorem IsSpecialResource_warnings (w : World) (obj : Object) :
    (IsSpecialResource w obj).2.warnings = w.warnings := by
  obtain ⟨l, h⟩ := IsSpecialResource_snd w obj
  rw [h]

/-- The result of the entry points that only classify: the two classifier answers joined. -/
theorem classify_result (w : World) (obj : Object) :
    (if (IsSpecialResource w obj).1 = true then true
      else if (Owned (IsSpecialResource w obj).2 obj).1 = true then true else false) =
      (specialValue obj || ownedValue obj) := by
  rw [IsSpecialResource_fst, Owned_fst]
  cases specialValue obj <;> cases ownedValue obj <;> rfl

/-! ## The Update entry point -/

/-- C1: for every pair (old, new) of objects with equal generation the Update entry point
returns false and issues no collaborator call, so lifecycle.UpdateDaemonSetPods is not
invoked, whatever kinds, type strings, labels, owner references, self-links and
resourceVersions the two objects have. -/
theorem update_equal_generation_suppressed (c : Collaborators) (w : World)
    (old new : Object) (h : old.generation = new.generation) :
    (UpdateFunc c w ⟨old, new⟩).1 = false ∧
      (UpdateFunc c w ⟨old, new⟩).2.calls = w.calls := by
  simp [UpdateFunc, h]

theorem update_equal_generation_suppressed_witness :
    podOld.generation = podNew.generation ∧
      podOld.resourceVersion ≠ podNew.resourceVersion ∧
      (UpdateFunc failingCollaborators freshWorld ⟨podOld, podNew⟩).1 = false ∧
      (UpdateFunc failingCollaborators freshWorld ⟨podOld, podNew⟩).2.calls =
        freshWorld.calls :=
  ⟨by decide, by decide,
    update_equal_generation_suppressed failingCollaborators freshWorld podOld podNew
      (by decide)⟩

/-- C2: for every pair (old, new) whose generations differ and whose resourceVersions are
equal the Update entry point returns false and issues no collaborator call, whether or not
new is a SpecialResource or is owned. -/
theorem update_equal_resourceVersion_suppressed (c : Collaborators) (w : World)
    (old new : Object) (hg : old.generation ≠ new.generation)
    (hr : old.resourceVersion = new.resourceVersion) :
    (UpdateFunc c w ⟨old, new⟩).1 = false ∧
      (UpdateFunc c w ⟨old, new⟩).2.calls = w.calls := by
  simp [UpdateFunc, hg, hr]

theorem update_equal_resourceVersion_suppressed_witness :
    (IsSpecialResource freshWorld specialNew).1 = true ∧
      (Owned freshWorld specialNew).1 = true ∧
      (UpdateFunc failingCollaborators freshWorld ⟨specialOld, specialNew⟩).1 = false ∧
      (UpdateFunc failingCollaborators freshWorld ⟨specialOld, specialNew⟩).2.calls =
        freshWorld.calls :=
  ⟨by decide, by decide,
    update_equal_resourceVersion_suppressed failingCollaborators freshWorld specialOld
      specialNew (by decide) (by decide)⟩

/-- C3: for every pair (old, new) whose generations differ and whose resourceVersions differ
the Update entry point returns exactly IsSpecialResource(new) || Owned(new); the right-hand
side is evaluated on the new object only, in any world, and names neither the old object
nor the collaborators, so the result depends on neither. -/
theorem update_changed_classifies_new (c : Collaborators) (w w1 w2 : World)
    (old new : Object) (hg : old.generation ≠ new.generation)
    (hr : old.resourceVersion ≠ new.resourceVersion) :
    (UpdateFunc c w ⟨old, new⟩).1 =
      ((IsSpecialResource w1 new).1 || (Owned w2 new).1) := by
  simp only [UpdateFunc, hg, hr, if_false]
  rw [IsSpecialResource_fst w1, Owned_fst w2]
  cases hs : (IsSpecialResource { w with Mode := "UPDATE" } new).1 with
  | true =>
    rw [IsSpecialResource_fst] at hs
    simp [hs]
  | false =>
    rw [IsSpecialResource_fst] at hs
    cases ho : (Owned (IsSpecialResource { w with Mode := "UPDATE" } new).2 new).1 with
    | true =>
      rw [Owned_fst] at ho
      by_cases ht : new.typeString = "*v1.DaemonSet" <;> simp [hs, ho, ht]
    | false =>
      rw [Owned_fst] at ho
      simp [hs, ho]

theorem update_changed_classifies_new_witness :
    (UpdateFunc failingCollaborators freshWorld ⟨configMapOld, ownedConfigMap⟩).1 =
      ((IsSpecialResource freshWorld ownedConfigMap).1 ||
        (Owned freshWorld ownedConfigMap).1) :=
  update_changed_classifies_new failingCollaborators freshWorld freshWorld freshWorld
    configMapOld ownedConfigMap (by decide) (by decide)

/-! ## The Create, Delete and Generic entry points -/

/-- C4: for every object each of the Create, Delete and Generic entry points returns exactly
IsSpecialResource(obj) || Owned(obj), so the three agree on the same object; the result of
Delete is the same for any two behaviours of the collaborators, in particular whether the
bookkeeping removal succeeds or fails; and the ConfigMap with an empty label map and one
owner reference of kind SpecialResource gives true on create. -/
theorem create_delete_generic_classify (c c2 : Collaborators) (w w1 w2 : World)
    (obj : Object) :
    (CreateFunc w ⟨obj⟩).1 = ((IsSpecialResource w1 obj).1 || (Owned w2 obj).1) ∧
      (DeleteFunc c w ⟨obj⟩).1 = ((IsSpecialResource w1 obj).1 || (Owned w2 obj).1) ∧
      (GenericFunc w ⟨obj⟩).1 = ((IsSpecialResource w1 obj).1 || (Owned w2 obj).1) ∧
      (DeleteFunc c w ⟨obj⟩).1 = (DeleteFunc c2 w ⟨obj⟩).1 ∧
      (CreateFunc w ⟨ownedConfigMap⟩).1 = true := by
  have hd : ∀ d : Collaborators, (DeleteFunc d w ⟨obj⟩).1 = (specialValue obj || ownedValue obj) := by
    intro d
    simp only [DeleteFunc]
    rw [← classify_result { w with Mode := "DELETE" } obj]
    split
    · rfl
    · split <;> rfl
  have hc : ∀ o : Object, (CreateFunc w ⟨o⟩).1 = (specialValue o || ownedValue o) := by
    intro o
    simp only [CreateFunc]
    rw [← classify_result { w with Mode := "CREATE" } o]
    split
    · rfl
    · split <;> rfl
  rw [IsSpecialResource_fst w1, Owned_fst w2]
  refine ⟨hc obj, hd c, ?_, ?_, ?_⟩
  · simp only [GenericFunc]
    rw [← classify_result { w with Mode := "GENERIC" } obj]
    split
    · rfl
    · split <;> rfl
  · rw [hd c, hd c2]
  · rw [hc ownedConfigMap]
    decide

/-! ## The classifier -/

/-- C5: for every object, Owned answers true if and only if some entry of the owner
references has Kind SpecialResource, or the label map is not nil and contains the key
specialresource.openshift.io/owned with any value.  In particular an object with a nil or
an empty label map and no owner references is not owned, an owner reference of kind
SpecialResource at any position of the list suffices, and so does the label key with any
value at all. -/
theorem owned_iff (w : World) (obj : Object) :
    ((Owned w obj).1 = true ↔
      (∃ o ∈ obj.ownerReferences, o.Kind = "SpecialResource") ∨
        (∃ m, obj.labels = some m ∧
          ∃ v, ("specialresource.openshift.io/owned", v) ∈ m)) ∧
      (Owned w { obj with labels := none, ownerReferences := [] }).1 = false ∧
      (Owned w { obj with labels := some [], ownerReferences := [] }).1 = false ∧
      (∀ (before after : List OwnerReference) (n u : String),
        (Owned w { obj with
          ownerReferences := before ++ ⟨"SpecialResource", n, u⟩ :: after }).1 = true) ∧
      (∀ (before after : StringMap) (v : String),
        (Owned w { obj with
          labels := some (before ++ ("specialresource.openshift.io/owned", v) :: after) }).1 =
            true) := by
  have key : ∀ x : Object, (Owned w x).1 = true ↔
      (∃ o ∈ x.ownerReferences, o.Kind = "SpecialResource") ∨
        (∃ m, x.labels = some m ∧
          ∃ v, ("specialresource.openshift.io/owned", v) ∈ m) := by
    intro x
    rw [Owned_fst]
    unfold ownedValue
    rw [Bool.or_eq_true, ownerLoop_iff]
    apply or_congr Iff.rfl
    cases h : x.labels with
    | none => simp
    | some m =>
      simp only [mapFound_iff, Option.some.injEq, exists_eq_left']
      rfl
  refine ⟨key obj, ?_, ?_, ?_, ?_⟩
  · simp [Owned, ownerLoop]
  · simp [Owned, ownerLoop, mapFound]
  · intro before after n u
    exact (key _).2 (Or.inl ⟨⟨"SpecialResource", n, u⟩, by simp, rfl⟩)
  · intro before after v
    exact (key _).2 (Or.inr ⟨_, rfl, v, by simp⟩)

/-- C6: for every object whose kind is SpecialResource, IsSpecialResource answers true,
whatever its labels, owner references, dynamic type string and self-link are. -/
theorem special_kind_is_special (w : World) (obj : Object)
    (h : obj.kind = "SpecialResource") : (IsSpecialResource w obj).1 = true := by
  have h2 : obj.kind = sroGVK := h
  simp [IsSpecialResource, h2]

theorem special_kind_is_special_witness :
    (Owned freshWorld labelledSpecial).1 = true ∧
      (IsSpecialResource freshWorld labelledSpecial).1 = true :=
  ⟨by decide, special_kind_is_special freshWorld labelledSpecial (by decide)⟩

/-- C7: for every object with kind k, dynamic type string t, self-link s and dump d,
IsSpecialResource answers k == SpecialResource, or t contains SpecialResource, or (not
Owned, and (s contains /apis/sro.openshift.io/v, or (k is empty and d contains
sro.openshift.io/v))): the checks apply in the order exact kind, type string, ownership
short-circuit, self-link, dump, and the dump is consulted only when the kind is empty. -/
theorem special_iff_ordered_checks (w w1 : World) (obj : Object) :
    (IsSpecialResource w obj).1 =
      (decide (obj.kind = "SpecialResource") ||
        stringsContains obj.typeString "SpecialResource" ||
        (!(Owned w1 obj).1 &&
          (stringsContains obj.selfLink "/apis/sro.openshift.io/v" ||
            (decide (obj.kind = "") && stringsContains obj.dump "sro.openshift.io/v")))) := by
  rw [IsSpecialResource_fst, Owned_fst]
  rfl

/-- C8: for every object whose kind is not SpecialResource and whose dynamic type string
does not contain SpecialResource, if Owned answers true then IsSpecialResource answers
false, whatever the self-link, the kind and the dump are. -/
theorem owned_short_circuit (w w1 : World) (obj : Object)
    (hk : obj.kind ≠ "SpecialResource")
    (ht : stringsContains obj.typeString "SpecialResource" = false)
    (ho : (Owned w1 obj).1 = true) : (IsSpecialResource w obj).1 = false := by
  rw [Owned_fst] at ho
  rw [IsSpecialResource_fst]
  have hk2 : ¬ obj.kind = sroGVK := hk
  have ht2 : stringsContains obj.typeString sroGVK = false := ht
  simp [specialValue, hk2, ht2, ho]

theorem owned_short_circuit_witness :
    stringsContains ownedUntyped.selfLink "/apis/sro.openshift.io/v" = true ∧
      ownedUntyped.kind = "" ∧
      stringsContains ownedUntyped.dump "sro.openshift.io/v" = true ∧
      (IsSpecialResource freshWorld ownedUntyped).1 = false :=
  ⟨by decide, by decide, by decide,
    owned_short_circuit freshWorld freshWorld ownedUntyped (by decide) (by decide)
      (by decide)⟩

/-- C9: the claim that IsSpecialResource and Owned are never both true, which the comment
above the ownership guard of IsSpecialResource states, is broken by the code: a typed
SpecialResource whose kind is not set and which carries the owned label is owned, and
IsSpecialResource answers true for it at the type-string test, which comes before the
guard. -/
theorem special_and_owned_together :
    ownedTypedSpecial.kind ≠ "SpecialResource" ∧
      stringsContains ownedTypedSpecial.typeString "SpecialResource" = true ∧
      (IsSpecialResource freshWorld ownedTypedSpecial).1 = true ∧
      (Owned freshWorld ownedTypedSpecial).1 = true := by
  decide

/-- Where IsSpecialResource and Owned both answer true, the kind test or the type-string
test of IsSpecialResource matched: the two tests that come before the ownership guard. -/
theorem special_and_owned_only_by_kind_or_type (w w1 : World) (obj : Object)
    (hs : (IsSpecialResource w obj).1 = true) (ho : (Owned w1 obj).1 = true) :
    obj.kind = "SpecialResource" ∨
      stringsContains obj.typeString "SpecialResource" = true := by
  rw [Owned_fst] at ho
  rw [IsSpecialResource_fst] at hs
  unfold specialValue at hs
  rw [ho] at hs
  simpa [sroGVK] using hs

theorem special_and_owned_only_by_kind_or_type_witness :
    ownedTypedSpecial.kind = "SpecialResource" ∨
      stringsContains ownedTypedSpecial.typeString "SpecialResource" = true :=
  special_and_owned_only_by_kind_or_type freshWorld freshWorld ownedTypedSpecial
    (by decide) (by decide)

/-- C10: for every pair (old, new) whose generations differ and whose resourceVersions
differ, where IsSpecialResource(new) is false, Owned(new) is true and the dynamic type
string of new is exactly *v1.DaemonSet, the Update entry point returns true and issues
exactly one collaborator call, lifecycle.UpdateDaemonSetPods with new as its argument,
whatever that call answers; an error it answers only becomes a warning. -/
theorem update_owned_daemonset_remediates (c : Collaborators) (w w1 w2 : World)
    (old new : Object) (hg : old.generation ≠ new.generation)
    (hr : old.resourceVersion ≠ new.resourceVersion)
    (hs : (IsSpecialResource w1 new).1 = false) (ho : (Owned w2 new).1 = true)
    (ht : new.typeString = "*v1.DaemonSet") :
    (UpdateFunc c w ⟨old, new⟩).1 = true ∧
      (UpdateFunc c w ⟨old, new⟩).2.calls = w.calls ++ [Call.UpdateDaemonSetPods new] ∧
      (UpdateFunc c w ⟨old, new⟩).2.warnings =
        w.warnings ++ (c.UpdateDaemonSetPods new).toList := by
  rw [IsSpecialResource_fst] at hs
  rw [Owned_fst] at ho
  simp only [UpdateFunc, hg, hr, if_false, IsSpecialResource_fst, Owned_fst, hs, ho, ht,
    if_true, Bool.false_eq_true]
  refine ⟨trivial, ?_, ?_⟩
  · cases c.UpdateDaemonSetPods new <;>
      simp [warnOnError, recordCall, logInfo, Owned_calls, IsSpecialResource_calls]
  · cases c.UpdateDaemonSetPods new <;>
      simp [warnOnError, recordCall, logInfo, Owned_warnings, IsSpecialResource_warnings]

theorem update_owned_daemonset_remediates_witness :
    ((UpdateFunc failingCollaborators freshWorld ⟨daemonSetOld, daemonSetNew⟩).1 = true ∧
      (UpdateFunc failingCollaborators freshWorld ⟨daemonSetOld, daemonSetNew⟩).2.calls =
        freshWorld.calls ++ [Call.UpdateDaemonSetPods daemonSetNew] ∧
      (UpdateFunc failingCollaborators freshWorld ⟨daemonSetOld, daemonSetNew⟩).2.warnings =
        freshWorld.warnings ++ (failingCollaborators.UpdateDaemonSetPods daemonSetNew).toList) ∧
      (UpdateFunc quietCollaborators freshWorld ⟨daemonSetOld, daemonSetNew⟩).1 = true :=
  ⟨update_owned_daemonset_remediates failingCollaborators freshWorld freshWorld freshWorld
      daemonSetOld daemonSetNew (by decide) (by decide) (by decide) (by decide) (by decide),
    by decide⟩

/-! ## Collaborator calls of the entry points -/

theorem warnOnError_calls (w : World) (err : Option String) :
    (warnOnError w err).calls = w.calls := by
  cases err <;> rfl

theorem warnOnError_warnings (w : World) (err : Option String) :
    (warnOnError w err).warnings = w.warnings ++ err.toList := by
  cases err <;> simp [warnOnError]

theorem warnOnError_Mode (w : World) (err : Option String) :
    (warnOnError w err).Mode = w.Mode := by
  cases err <;> rfl

/-- The calls of DeleteFunc: the removal when the object is owned and not special, else none. -/
theorem DeleteFunc_calls (c : Collaborators) (w : World) (obj : Object) :
    (DeleteFunc c w ⟨obj⟩).2.calls =
      w.calls ++ (if specialValue obj = false ∧ ownedValue obj = true
        then [removalCall c obj] else []) := by
  simp only [DeleteFunc, IsSpecialResource_fst, Owned_fst]
  cases hs : specialValue obj with
  | true => simp [IsSpecialResource_calls]
  | false =>
    cases ho : ownedValue obj with
    | true =>
      simp [warnOnError_calls, recordCall, Owned_calls, IsSpecialResource_calls, removalCall]
    | false => simp [Owned_calls, IsSpecialResource_calls]

/-- The warnings of DeleteFunc: the error of the removal, if it was issued and failed. -/
theorem DeleteFunc_warnings (c : Collaborators) (w : World) (obj : Object)
    (hs : specialValue obj = false) (ho : ownedValue obj = true) :
    (DeleteFunc c w ⟨obj⟩).2.warnings =
      w.warnings ++ (c.DeleteConfigMapEntry (c.FNV64a (obj.Namespace ++ obj.name))
        ⟨c.Getenv "OPERATOR_NAMESPACE", "special-resource-lifecycle"⟩).toList := by
  simp only [DeleteFunc, IsSpecialResource_fst, Owned_fst, hs, ho]
  simp [warnOnError_warnings, recordCall, Owned_warnings, IsSpecialResource_warnings]

/-- The calls of UpdateFunc: the remediation on the one path that reaches it, else none. -/
theorem UpdateFunc_calls (c : Collaborators) (w : World) (old new : Object) :
    (UpdateFunc c w ⟨old, new⟩).2.calls =
      w.calls ++ (if old.generation ≠ new.generation ∧
          old.resourceVersion ≠ new.resourceVersion ∧ specialValue new = false ∧
          ownedValue new = true ∧ new.typeString = "*v1.DaemonSet"
        then [Call.UpdateDaemonSetPods new] else []) := by
  simp only [UpdateFunc]
  by_cases hg : old.generation = new.generation
  · simp [hg]
  · by_cases hr : old.resourceVersion = new.resourceVersion
    · simp [hg, hr]
    · simp only [hg, hr, if_false, IsSpecialResource_fst, Owned_fst]
      cases hs : specialValue new with
      | true => simp [logInfo, IsSpecialResource_calls]
      | false =>
        cases ho : ownedValue new with
        | false => simp [Owned_calls, IsSpecialResource_calls]
        | true =>
          by_cases ht : new.typeString = "*v1.DaemonSet"
          · simp [ht, hg, hr, warnOnError_calls, recordCall, logInfo, Owned_calls,
              IsSpecialResource_calls]
          · simp [ht, logInfo, Owned_calls, IsSpecialResource_calls]

theorem CreateFunc_calls (w : World) (obj : Object) :
    (CreateFunc w ⟨obj⟩).2.calls = w.calls := by
  simp only [CreateFunc]
  split
  · rw [IsSpecialResource_calls]
  · split <;> rw [Owned_calls, IsSpecialResource_calls]

theorem GenericFunc_calls (w : World) (obj : Object) :
    (GenericFunc w ⟨obj⟩).2.calls = w.calls := by
  simp only [GenericFunc]
  split
  · rw [IsSpecialResource_calls]
  · split <;> rw [Owned_calls, IsSpecialResource_calls]

/-! ## The Delete entry point and the bookkeeping store -/

/-- C11: for every object with IsSpecialResource false and Owned true, the Delete entry
point returns true and issues exactly one collaborator call, storage.DeleteConfigMapEntry
with the key hash.FNV64a(namespace ++ name) and the identity made of the value of
OPERATOR_NAMESPACE and the name special-resource-lifecycle, whatever that call answers; an
error it answers only becomes a warning. -/
theorem delete_owned_removes_entry (c : Collaborators) (w w1 w2 : World) (obj : Object)
    (hs : (IsSpecialResource w1 obj).1 = false) (ho : (Owned w2 obj).1 = true) :
    (DeleteFunc c w ⟨obj⟩).1 = true ∧
      (DeleteFunc c w ⟨obj⟩).2.calls =
        w.calls ++ [Call.DeleteConfigMapEntry (c.FNV64a (obj.Namespace ++ obj.name))
          ⟨c.Getenv "OPERATOR_NAMESPACE", "special-resource-lifecycle"⟩] ∧
      (DeleteFunc c w ⟨obj⟩).2.warnings =
        w.warnings ++ (c.DeleteConfigMapEntry (c.FNV64a (obj.Namespace ++ obj.name))
          ⟨c.Getenv "OPERATOR_NAMESPACE", "special-resource-lifecycle"⟩).toList := by
  rw [IsSpecialResource_fst] at hs
  rw [Owned_fst] at ho
  refine ⟨?_, ?_, DeleteFunc_warnings c w obj hs ho⟩
  · simp [DeleteFunc, IsSpecialResource_fst, Owned_fst, hs, ho]
  · rw [DeleteFunc_calls]
    simp [hs, ho, removalCall]

theorem delete_owned_removes_entry_witness :
    (DeleteFunc hashingCollaborators freshWorld ⟨ownedFoo⟩).1 = true ∧
      (DeleteFunc hashingCollaborators freshWorld ⟨ownedFoo⟩).2.calls =
        freshWorld.calls ++ [Call.DeleteConfigMapEntry (hashingCollaborators.FNV64a "nsfoo")
          ⟨"sro", "special-resource-lifecycle"⟩] ∧
      (DeleteFunc hashingCollaborators freshWorld ⟨ownedFoo⟩).2.warnings =
        freshWorld.warnings ++ ["entry not deleted"] :=
  delete_owned_removes_entry hashingCollaborators freshWorld freshWorld freshWorld ownedFoo
    (by decide) (by decide)

/-- C12, as the claim states it, fails: an object of kind SpecialResource that carries
the owned label is owned, yet the Delete entry point returns on the IsSpecialResource test
and issues no removal. -/
theorem delete_owned_special_no_removal :
    (Owned freshWorld labelledSpecial).1 = true ∧
      (DeleteFunc hashingCollaborators freshWorld ⟨labelledSpecial⟩).1 = true ∧
      (DeleteFunc hashingCollaborators freshWorld ⟨labelledSpecial⟩).2.calls = [] := by
  decide

/-- C12, amended: on a Delete event, whenever the deleted object is owned and
IsSpecialResource answers false for it, the predicate issues the removal of the entry keyed
by hash.FNV64a(namespace ++ name); an owned object for which IsSpecialResource answers true
issues no call. -/
theorem delete_owned_removal_unless_special (c : Collaborators) (w w1 w2 : World)
    (obj : Object) (ho : (Owned w2 obj).1 = true) :
    (DeleteFunc c w ⟨obj⟩).2.calls =
      w.calls ++ (if (IsSpecialResource w1 obj).1 = true then []
        else [Call.DeleteConfigMapEntry (c.FNV64a (obj.Namespace ++ obj.name))
          ⟨c.Getenv "OPERATOR_NAMESPACE", "special-resource-lifecycle"⟩]) := by
  rw [Owned_fst] at ho
  rw [DeleteFunc_calls, IsSpecialResource_fst]
  cases hs : specialValue obj <;> simp [ho, removalCall]

theorem delete_owned_removal_unless_special_witness :
    (DeleteFunc hashingCollaborators freshWorld ⟨ownedConfigMap⟩).2.calls =
      freshWorld.calls ++ (if (IsSpecialResource freshWorld ownedConfigMap).1 = true then []
        else [Call.DeleteConfigMapEntry (hashingCollaborators.FNV64a "nscm")
          ⟨"sro", "special-resource-lifecycle"⟩]) :=
  delete_owned_removal_unless_special hashingCollaborators freshWorld freshWorld freshWorld
    ownedConfigMap (by decide)

/-- C20: the bookkeeping key computed on Delete depends only on the concatenation of
namespace and name: for any two owned objects that are not special and whose
concatenations are equal, the Delete entry point issues the same call, the removal with
the key hash.FNV64a of that concatenation, so distinct objects address the same entry. -/
theorem delete_key_depends_on_concatenation (c : Collaborators) (w w1 w2 : World)
    (obj1 obj2 : Object)
    (hs1 : (IsSpecialResource w1 obj1).1 = false) (ho1 : (Owned w2 obj1).1 = true)
    (hs2 : (IsSpecialResource w1 obj2).1 = false) (ho2 : (Owned w2 obj2).1 = true)
    (h : obj1.Namespace ++ obj1.name = obj2.Namespace ++ obj2.name) :
    (DeleteFunc c w ⟨obj1⟩).2.calls = (DeleteFunc c w ⟨obj2⟩).2.calls ∧
      (DeleteFunc c w ⟨obj2⟩).2.calls =
        w.calls ++ [Call.DeleteConfigMapEntry (c.FNV64a (obj1.Namespace ++ obj1.name))
          ⟨c.Getenv "OPERATOR_NAMESPACE", "special-resource-lifecycle"⟩] := by
  rw [IsSpecialResource_fst] at hs1 hs2
  rw [Owned_fst] at ho1 ho2
  rw [DeleteFunc_calls, DeleteFunc_calls]
  simp [hs1, hs2, ho1, ho2, removalCall, h]

theorem delete_key_depends_on_concatenation_witness :
    ownedInAb.Namespace ≠ ownedInA.Namespace ∧ ownedInAb.name ≠ ownedInA.name ∧
      (DeleteFunc hashingCollaborators freshWorld ⟨ownedInAb⟩).2.calls =
        (DeleteFunc hashingCollaborators freshWorld ⟨ownedInA⟩).2.calls ∧
      (DeleteFunc hashingCollaborators freshWorld ⟨ownedInA⟩).2.calls =
        freshWorld.calls ++ [Call.DeleteConfigMapEntry (hashingCollaborators.FNV64a "abc")
          ⟨"sro", "special-resource-lifecycle"⟩] :=
  ⟨by decide, by decide,
    delete_key_depends_on_concatenation hashingCollaborators freshWorld freshWorld
      freshWorld ownedInAb ownedInA (by decide) (by decide) (by decide) (by decide)
      (by decide)⟩

/-! ## The package variable Mode -/

theorem startsWith_append_chars (a b : List Char) : startsWith (a ++ b) a = true := by
  rw [startsWith_iff]
  exact List.prefix_append _ _

theorem startsWith_append (a b : String) : startsWith (a ++ b).data a.data = true := by
  rw [String.data_append]
  exact startsWith_append_chars _ _

/-- Every line Owned logs begins with the value of Mode. -/
theorem Owned_log (w : World) (obj : Object) :
    ∃ l, (Owned w obj).2.log = w.log ++ l ∧
      ∀ e ∈ l, startsWith e.msg.data w.Mode.data = true := by
  unfold Owned
  split
  · exact ⟨_, rfl, by simp [logInfo, startsWith_append_chars]⟩
  · split
    · split
      · exact ⟨_, rfl, by simp [logInfo, startsWith_append_chars]⟩
      · exact ⟨[], by simp⟩
    · exact ⟨[], by simp⟩

/-- Every line IsSpecialResource logs begins with the value of Mode. -/
theorem IsSpecialResource_log (w : World) (obj : Object) :
    ∃ l, (IsSpecialResource w obj).2.log = w.log ++ l ∧
      ∀ e ∈ l, startsWith e.msg.data w.Mode.data = true := by
  obtain ⟨l, hl, hp⟩ := Owned_log w obj
  have hm := Owned_Mode w obj
  have hadd : ∀ s : String, ∃ l2,
      (logInfo (Owned w obj).2 ((Owned w obj).2.Mode ++ s) obj).log = w.log ++ l2 ∧
        ∀ e ∈ l2, startsWith e.msg.data w.Mode.data = true := by
    intro s
    refine ⟨l ++ [⟨w.Mode ++ s, obj.name, obj.typeString⟩], ?_, ?_⟩
    · simp [logInfo, hl, hm]
    · intro e he
      rcases List.mem_append.1 he with h1 | h1
      · exact hp e h1
      · simp only [List.mem_singleton] at h1
        subst h1
        exact startsWith_append _ _
  unfold IsSpecialResource
  simp only
  split
  · exact ⟨_, rfl, by simp [logInfo, startsWith_append_chars]⟩
  · split
    · exact ⟨_, rfl, by simp [logInfo, startsWith_append_chars]⟩
    · split
      · exact ⟨l, hl, hp⟩
      · split
        · exact hadd _
        · split
          · split
            · exact hadd _
            · exact ⟨l, hl, hp⟩
          · exact ⟨l, hl, hp⟩

theorem CreateFunc_Mode (w : World) (obj : Object) :
    (CreateFunc w ⟨obj⟩).2.Mode = "CREATE" := by
  simp only [CreateFunc]
  split
  · rw [IsSpecialResource_Mode]
  · split <;> rw [Owned_Mode, IsSpecialResource_Mode]

theorem GenericFunc_Mode (w : World) (obj : Object) :
    (GenericFunc w ⟨obj⟩).2.Mode = "GENERIC" := by
  simp only [GenericFunc]
  split
  · rw [IsSpecialResource_Mode]
  · split <;> rw [Owned_Mode, IsSpecialResource_Mode]

theorem DeleteFunc_Mode (c : Collaborators) (w : World) (obj : Object) :
    (DeleteFunc c w ⟨obj⟩).2.Mode = "DELETE" := by
  simp only [DeleteFunc]
  split
  · rw [IsSpecialResource_Mode]
  · split
    · rw [warnOnError_Mode]
      simp [recordCall, Owned_Mode, IsSpecialResource_Mode]
    · rw [Owned_Mode, IsSpecialResource_Mode]

theorem UpdateFunc_Mode (c : Collaborators) (w : World) (old new : Object) :
    (UpdateFunc c w ⟨old, new⟩).2.Mode = "UPDATE" := by
  simp only [UpdateFunc]
  split
  · rfl
  · split
    · rfl
    · split
      · simp [logInfo, IsSpecialResource_Mode]
      · split
        · split
          · rw [warnOnError_Mode]
            simp [recordCall, logInfo, Owned_Mode, IsSpecialResource_Mode]
          · simp [logInfo, Owned_Mode, IsSpecialResource_Mode]
        · rw [Owned_Mode, IsSpecialResource_Mode]

/-- C16: the package variable Mode has no effect on any decision.  For every payload and
any two initial values of Mode, IsSpecialResource and Owned answer the same boolean, issue
no collaborator call, leave Mode as it was and use it only at the head of the lines they
log; each of the four entry points ends in the very same world and with the same boolean,
hence with the same collaborator calls and arguments; and each entry point leaves Mode
overwritten with its own tag. -/
theorem mode_has_no_effect (c : Collaborators) (w : World) (m1 m2 : String)
    (obj old new : Object) :
    ((IsSpecialResource { w with Mode := m1 } obj).1 =
        (IsSpecialResource { w with Mode := m2 } obj).1 ∧
      (IsSpecialResource { w with Mode := m1 } obj).2.calls = w.calls ∧
      (IsSpecialResource { w with Mode := m1 } obj).2.Mode = m1 ∧
      ∃ l, (IsSpecialResource { w with Mode := m1 } obj).2.log = w.log ++ l ∧
        ∀ e ∈ l, startsWith e.msg.data m1.data = true) ∧
    ((Owned { w with Mode := m1 } obj).1 = (Owned { w with Mode := m2 } obj).1 ∧
      (Owned { w with Mode := m1 } obj).2.calls = w.calls ∧
      (Owned { w with Mode := m1 } obj).2.Mode = m1 ∧
      ∃ l, (Owned { w with Mode := m1 } obj).2.log = w.log ++ l ∧
        ∀ e ∈ l, startsWith e.msg.data m1.data = true) ∧
    (CreateFunc { w with Mode := m1 } ⟨obj⟩ = CreateFunc { w with Mode := m2 } ⟨obj⟩ ∧
      (CreateFunc { w with Mode := m1 } ⟨obj⟩).2.Mode = "CREATE") ∧
    (UpdateFunc c { w with Mode := m1 } ⟨old, new⟩ =
        UpdateFunc c { w with Mode := m2 } ⟨old, new⟩ ∧
      (UpdateFunc c { w with Mode := m1 } ⟨old, new⟩).2.Mode = "UPDATE") ∧
    (DeleteFunc c { w with Mode := m1 } ⟨obj⟩ = DeleteFunc c { w with Mode := m2 } ⟨obj⟩ ∧
      (DeleteFunc c { w with Mode := m1 } ⟨obj⟩).2.Mode = "DELETE") ∧
    (GenericFunc { w with Mode := m1 } ⟨obj⟩ = GenericFunc { w with Mode := m2 } ⟨obj⟩ ∧
      (GenericFunc { w with Mode := m1 } ⟨obj⟩).2.Mode = "GENERIC") := by
  refine ⟨⟨?_, ?_, ?_, IsSpecialResource_log _ obj⟩, ⟨?_, ?_, ?_, Owned_log _ obj⟩,
    ⟨rfl, CreateFunc_Mode _ obj⟩, ⟨rfl, UpdateFunc_Mode c _ old new⟩,
    ⟨rfl, DeleteFunc_Mode c _ obj⟩, ⟨rfl, GenericFunc_Mode _ obj⟩⟩
  · rw [IsSpecialResource_fst, IsSpecialResource_fst]
  · rw [IsSpecialResource_calls]
  · rw [IsSpecialResource_Mode]
  · rw [Owned_fst, Owned_fst]
  · rw [Owned_calls]
  · rw [Owned_Mode]

/-- C17: lifecycle.UpdateDaemonSetPods is never invoked by Create, Delete or Generic, and
Update issues no call at all whenever the generations are equal, or the resourceVersions
are equal, or IsSpecialResource(new) is true, or Owned(new) is false, or the dynamic type
string of new is not *v1.DaemonSet; storage.DeleteConfigMapEntry is never invoked by
Create, Update or Generic. -/
theorem remediation_only_on_daemonset_update (c : Collaborators) (w w1 w2 : World)
    (obj old new : Object) :
    (CreateFunc w ⟨obj⟩).2.calls = w.calls ∧
    (GenericFunc w ⟨obj⟩).2.calls = w.calls ∧
    (DeleteFunc c w ⟨obj⟩).2.calls.filter isUpdateDaemonSetPods =
      w.calls.filter isUpdateDaemonSetPods ∧
    (UpdateFunc c w ⟨old, new⟩).2.calls.filter isDeleteConfigMapEntry =
      w.calls.filter isDeleteConfigMapEntry ∧
    ((old.generation = new.generation ∨ old.resourceVersion = new.resourceVersion ∨
        (IsSpecialResource w1 new).1 = true ∨ (Owned w2 new).1 = false ∨
        new.typeString ≠ "*v1.DaemonSet") →
      (UpdateFunc c w ⟨old, new⟩).2.calls = w.calls) := by
  refine ⟨CreateFunc_calls w obj, GenericFunc_calls w obj, ?_, ?_, ?_⟩
  · rw [DeleteFunc_calls]
    split <;> simp [removalCall, isUpdateDaemonSetPods]
  · rw [UpdateFunc_calls]
    split <;> simp [isDeleteConfigMapEntry]
  · intro h
    rw [IsSpecialResource_fst, Owned_fst] at h
    rw [UpdateFunc_calls]
    have hn : ¬ (old.generation ≠ new.generation ∧
        old.resourceVersion ≠ new.resourceVersion ∧ specialValue new = false ∧
        ownedValue new = true ∧ new.typeString = "*v1.DaemonSet") := by
      rintro ⟨a, b, c1, d, e⟩
      rcases h with h | h | h | h | h
      · exact a h
      · exact b h
      · rw [c1] at h; exact Bool.noConfusion h
      · rw [d] at h; exact Bool.noConfusion h
      · exact h e
    rw [if_neg hn, List.append_nil]

theorem remediation_only_on_daemonset_update_witness :
    unstructuredDaemonSet.kind = "DaemonSet" ∧
      (Owned freshWorld unstructuredDaemonSet).1 = true ∧
      (UpdateFunc hashingCollaborators freshWorld ⟨daemonSetOld, unstructuredDaemonSet⟩).1 =
        true ∧
      (UpdateFunc hashingCollaborators freshWorld ⟨daemonSetOld, unstructuredDaemonSet⟩).2.calls =
        freshWorld.calls :=
  ⟨by decide, by decide, by decide,
    (remediation_only_on_daemonset_update hashingCollaborators freshWorld freshWorld
      freshWorld unstructuredDaemonSet daemonSetOld unstructuredDaemonSet).2.2.2.2
      (Or.inr (Or.inr (Or.inr (Or.inr (by decide)))))⟩

/-! ## Facts about maps and nested fields -/

theorem mapGet_mapSet_self {α : Type} (m : List (String × α)) (k : String) (v : α) :
    mapGet (mapSet m k v) k = some v := by
  induction m with
  | nil => simp [mapSet, mapGet]
  | cons kv rest ih =>
    obtain ⟨k1, x⟩ := kv
    by_cases h : k1 = k
    · simp [mapSet, mapGet, h]
    · simp [mapSet, mapGet, h, ih]

theorem mapGet_mapSet_ne {α : Type} (m : List (String × α)) (k k2 : String) (v : α)
    (h : k2 ≠ k) : mapGet (mapSet m k v) k2 = mapGet m k2 := by
  induction m with
  | nil =>
    have h2 : ¬ k = k2 := fun e => h e.symm
    simp [mapSet, mapGet, h2]
  | cons kv rest ih =>
    obtain ⟨k1, x⟩ := kv
    by_cases h1 : k1 = k
    · subst h1
      have h2 : ¬ k1 = k2 := fun e => h e.symm
      simp [mapSet, mapGet, h2]
    · by_cases h3 : k1 = k2
      · subst h3
        simp [mapSet, mapGet, h1]
      · simp [mapSet, mapGet, h1, h3, ih]

theorem mapSet_eq_self {α : Type} (m : List (String × α)) (k : String) (v : α)
    (h : mapGet m k = some v) : mapSet m k v = m := by
  induction m with
  | nil => simp [mapGet] at h
  | cons kv rest ih =>
    obtain ⟨k1, x⟩ := kv
    by_cases h1 : k1 = k
    · simp only [mapGet, h1, if_true, Option.some.injEq] at h
      simp [mapSet, h1, h]
    · simp only [mapGet, h1, if_false] at h
      simp [mapSet, h1, ih h]

theorem mapSet_mapSet {α : Type} (m : List (String × α)) (k : String) (v v2 : α) :
    mapSet (mapSet m k v) k v2 = mapSet m k v2 := by
  induction m with
  | nil => simp [mapSet]
  | cons kv rest ih =>
    obtain ⟨k1, x⟩ := kv
    by_cases h1 : k1 = k
    · simp [mapSet, h1]
    · simp [mapSet, h1, ih]

theorem mapFound_eq_isSome (m : StringMap) (k : String) :
    mapFound m k = (mapGet m k).isSome := by
  induction m with
  | nil => rfl
  | cons kv rest ih =>
    obtain ⟨k1, x⟩ := kv
    by_cases h1 : k1 = k
    · simp [mapFound, mapGet, h1]
    · simp [mapFound, mapGet, h1, ih]

theorem toStringMap_ofStringMap (l : StringMap) : toStringMap (ofStringMap l) = some l := by
  induction l with
  | nil => rfl
  | cons kv rest ih =>
    obtain ⟨k, v⟩ := kv
    have h : ofStringMap ((k, v) :: rest) = (k, Value.str v) :: ofStringMap rest := rfl
    rw [h, toStringMap, ih]

theorem NestedFieldNoCopy_nil (v : Value) : NestedFieldNoCopy v [] = Nested.found v := by
  cases v <;> rfl

theorem NestedFieldNoCopy_map_cons (m : ValueMap) (f : String) (rest : List String) :
    NestedFieldNoCopy (Value.map m) (f :: rest) =
      (match mapGet m f with
       | some v => NestedFieldNoCopy v rest
       | none => Nested.notFound) := by
  rw [NestedFieldNoCopy]

/-- A nested read that goes through a first field sees only what the map holds there. -/
theorem NestedFieldNoCopy_congr (a b : ValueMap) (f : String) (rest : List String)
    (h : mapGet a f = mapGet b f) :
    NestedFieldNoCopy (Value.map a) (f :: rest) = NestedFieldNoCopy (Value.map b) (f :: rest) := by
  rw [NestedFieldNoCopy_map_cons, NestedFieldNoCopy_map_cons, h]

/-- A nested read of a longer path continues from what the shorter path found. -/
theorem NestedFieldNoCopy_append (p q : List String) (x y : Value)
    (h : NestedFieldNoCopy x p = Nested.found y) :
    NestedFieldNoCopy x (p ++ q) = NestedFieldNoCopy y q := by
  induction p generalizing x with
  | nil =>
    rw [NestedFieldNoCopy_nil] at h
    cases h
    rfl
  | cons f rest ih =>
    cases x with
    | map m =>
      rw [NestedFieldNoCopy_map_cons] at h
      rw [List.cons_append, NestedFieldNoCopy_map_cons]
      cases hg : mapGet m f with
      | none => rw [hg] at h; cases h
      | some v =>
        rw [hg] at h
        exact ih v h
    | null => simp [NestedFieldNoCopy] at h
    | bool b => simp [NestedFieldNoCopy] at h
    | int n => simp [NestedFieldNoCopy] at h
    | float b => simp [NestedFieldNoCopy] at h
    | str s => simp [NestedFieldNoCopy] at h
    | list xs => simp [NestedFieldNoCopy] at h

/-- What a successful nested write put in place is what a nested read of the path finds. -/
theorem get_after_set (v : Value) (p : List String) (m m2 : ValueMap)
    (h : setNestedFieldNoCopy v p m = some m2) :
    NestedFieldNoCopy (Value.map m2) p = Nested.found v := by
  induction p generalizing m m2 with
  | nil => simp [setNestedFieldNoCopy] at h
  | cons f rest ih =>
    cases rest with
    | nil =>
      simp only [setNestedFieldNoCopy, Option.some.injEq] at h
      subst h
      rw [NestedFieldNoCopy_map_cons, mapGet_mapSet_self]
      exact NestedFieldNoCopy_nil v
    | cons f2 rest2 =>
      rw [setNestedFieldNoCopy] at h
      rw [NestedFieldNoCopy_map_cons]
      cases hg : mapGet m f with
      | none =>
        rw [hg] at h
        simp only at h
        cases hs : setNestedFieldNoCopy v (f2 :: rest2) [] with
        | none => rw [hs] at h; cases h
        | some n =>
          rw [hs] at h
          simp only [Option.some.injEq] at h
          subst h
          rw [mapGet_mapSet_self]
          exact ih [] n hs
      | some x =>
        rw [hg] at h
        cases x with
        | map vm =>
          simp only at h
          cases hs : setNestedFieldNoCopy v (f2 :: rest2) vm with
          | none => rw [hs] at h; cases h
          | some n =>
            rw [hs] at h
            simp only [Option.some.injEq] at h
            subst h
            rw [mapGet_mapSet_self]
            exact ih vm n hs
        | null => cases h
        | bool b => cases h
        | int n => cases h
        | float b => cases h
        | str s => cases h
        | list xs => cases h

/-- Writing what a nested read already finds changes nothing. -/
theorem set_same (v : Value) (p : List String) (m : ValueMap) (hp : p ≠ [])
    (h : NestedFieldNoCopy (Value.map m) p = Nested.found v) :
    setNestedFieldNoCopy v p m = some m := by
  induction p generalizing m with
  | nil => exact absurd rfl hp
  | cons f rest ih =>
    rw [NestedFieldNoCopy_map_cons] at h
    cases hg : mapGet m f with
    | none => rw [hg] at h; cases h
    | some x =>
      rw [hg] at h
      simp only at h
      cases rest with
      | nil =>
        rw [NestedFieldNoCopy_nil] at h
        cases h
        simp [setNestedFieldNoCopy, mapSet_eq_self m f v hg]
      | cons f2 rest2 =>
        cases x with
        | map vm =>
          rw [setNestedFieldNoCopy, hg]
          simp only
          rw [ih vm (List.cons_ne_nil _ _) h]
          simp [mapSet_eq_self m f (Value.map vm) hg]
        | null => simp [NestedFieldNoCopy] at h
        | bool b => simp [NestedFieldNoCopy] at h
        | int n => simp [NestedFieldNoCopy] at h
        | float b => simp [NestedFieldNoCopy] at h
        | str s => simp [NestedFieldNoCopy] at h
        | list xs => simp [NestedFieldNoCopy] at h

/-- A nested write succeeds wherever a nested read of the same path found something. -/
theorem set_succeeds_of_get (v x : Value) (p : List String) (m : ValueMap) (hp : p ≠ [])
    (h : NestedFieldNoCopy (Value.map m) p = Nested.found x) :
    (setNestedFieldNoCopy v p m).isSome = true := by
  induction p generalizing m with
  | nil => exact absurd rfl hp
  | cons f rest ih =>
    rw [NestedFieldNoCopy_map_cons] at h
    cases hg : mapGet m f with
    | none => rw [hg] at h; cases h
    | some y =>
      rw [hg] at h
      simp only at h
      cases rest with
      | nil => simp [setNestedFieldNoCopy]
      | cons f2 rest2 =>
        cases y with
        | map vm =>
          have h2 := ih vm (List.cons_ne_nil _ _) h
          rw [setNestedFieldNoCopy, hg]
          simp only
          cases hs : setNestedFieldNoCopy v (f2 :: rest2) vm with
          | none => rw [hs] at h2; cases h2
          | some n => rfl
        | null => simp [NestedFieldNoCopy] at h
        | bool b => simp [NestedFieldNoCopy] at h
        | int n => simp [NestedFieldNoCopy] at h
        | float b => simp [NestedFieldNoCopy] at h
        | str s => simp [NestedFieldNoCopy] at h
        | list xs => simp [NestedFieldNoCopy] at h

/-- A successful nested write replaces what the map holds under the first field, no more. -/
theorem set_head (v : Value) (f : String) (rest : List String) (m m2 : ValueMap)
    (h : setNestedFieldNoCopy v (f :: rest) m = some m2) : ∃ x, m2 = mapSet m f x := by
  cases rest with
  | nil =>
    simp only [setNestedFieldNoCopy, Option.some.injEq] at h
    exact ⟨v, h.symm⟩
  | cons f2 rest2 =>
    rw [setNestedFieldNoCopy] at h
    cases hg : mapGet m f with
    | none =>
      rw [hg] at h
      simp only at h
      cases hs : setNestedFieldNoCopy v (f2 :: rest2) [] with
      | none => rw [hs] at h; cases h
      | some n =>
        rw [hs] at h
        simp only [Option.some.injEq] at h
        exact ⟨Value.map n, h.symm⟩
    | some y =>
      rw [hg] at h
      cases y with
      | map vm =>
        simp only at h
        cases hs : setNestedFieldNoCopy v (f2 :: rest2) vm with
        | none => rw [hs] at h; cases h
        | some n =>
          rw [hs] at h
          simp only [Option.some.injEq] at h
          exact ⟨Value.map n, h.symm⟩
      | null => cases h
      | bool b => cases h
      | int n => cases h
      | float b => cases h
      | str s => cases h
      | list xs => cases h

/-- A successful nested write leaves every other top-level key as it was. -/
theorem set_frame (v : Value) (f k : String) (rest : List String) (m m2 : ValueMap)
    (h : setNestedFieldNoCopy v (f :: rest) m = some m2) (hk : k ≠ f) :
    mapGet m2 k = mapGet m k := by
  obtain ⟨x, hx⟩ := set_head v f rest m m2 h
  rw [hx, mapGet_mapSet_ne m f k x hk]

/-! ## Facts about the accessors of unstructured objects -/

theorem nestedMapNoCopy_found (obj : ValueMap) (p : List String) (labels : ValueMap) :
    nestedMapNoCopy obj p = Nested.found labels ↔
      NestedFieldNoCopy (Value.map obj) p = Nested.found (Value.map labels) := by
  unfold nestedMapNoCopy
  cases h : NestedFieldNoCopy (Value.map obj) p with
  | notFound => simp
  | error => simp
  | found v => cases v <;> simp

theorem GetKind_congr (a b : Unstructured)
    (h : mapGet a.Object "kind" = mapGet b.Object "kind") : GetKind a = GetKind b := by
  unfold GetKind
  rw [NestedFieldNoCopy_congr a.Object b.Object "kind" [] h]

theorem GetLabels_congr (a b : Unstructured)
    (h : mapGet a.Object "metadata" = mapGet b.Object "metadata") :
    GetLabels a = GetLabels b := by
  unfold GetLabels NestedStringMap nestedMapNoCopy
  rw [NestedFieldNoCopy_congr a.Object b.Object "metadata" ["labels"] h]

/-- SetLabels leaves every top-level key but metadata as it was. -/
theorem SetLabels_frame (obj : Unstructured) (labels : StringMap) (k : String)
    (hk : k ≠ "metadata") :
    mapGet (SetLabels obj labels).Object k = mapGet obj.Object k := by
  unfold SetLabels SetNestedStringMap
  cases h : setNestedFieldNoCopy (Value.map (ofStringMap labels)) ["metadata", "labels"]
      obj.Object with
  | none => rfl
  | some o => exact set_frame _ "metadata" k ["labels"] obj.Object o h hk

/-- On an object whose metadata is missing or a map, GetLabels reads what SetLabels wrote. -/
theorem SetLabels_get (obj : Unstructured) (labels : StringMap)
    (h : metadataWritable obj = true) : GetLabels (SetLabels obj labels) = some labels := by
  have hs : (setNestedFieldNoCopy (Value.map (ofStringMap labels)) ["metadata", "labels"]
      obj.Object).isSome = true := by
    unfold metadataWritable at h
    rw [setNestedFieldNoCopy]
    cases hg : mapGet obj.Object "metadata" with
    | none => simp [setNestedFieldNoCopy]
    | some x =>
      rw [hg] at h
      cases x <;> simp [setNestedFieldNoCopy] at h ⊢
  cases hset : setNestedFieldNoCopy (Value.map (ofStringMap labels)) ["metadata", "labels"]
      obj.Object with
  | none => rw [hset] at hs; cases hs
  | some o =>
    have hget := get_after_set _ _ _ _ hset
    unfold SetLabels SetNestedStringMap
    rw [hset]
    unfold GetLabels NestedStringMap
    rw [(nestedMapNoCopy_found o _ _).2 hget]
    simp [toStringMap_ofStringMap]

/-- On an object whose metadata is neither missing nor a map, SetLabels changes nothing and
GetLabels answers nil. -/
theorem SetLabels_unwritable (obj : Unstructured) (labels : StringMap)
    (h : metadataWritable obj = false) :
    SetLabels obj labels = obj ∧ GetLabels obj = none := by
  unfold metadataWritable at h
  unfold SetLabels SetNestedStringMap GetLabels NestedStringMap nestedMapNoCopy
  rw [setNestedFieldNoCopy, NestedFieldNoCopy_map_cons]
  cases hg : mapGet obj.Object "metadata" with
  | none => rw [hg] at h; cases h
  | some x =>
    rw [hg] at h
    cases x <;> simp [NestedFieldNoCopy] at h ⊢

theorem hasPodTemplate_iff (obj : Unstructured) :
    hasPodTemplate obj = true ↔
      (GetKind obj = "DaemonSet" ∨ GetKind obj = "Deployment" ∨
        GetKind obj = "StatefulSet") := by
  simp [hasPodTemplate]

/-- On a kind without a pod template SetSubResourceLabel gives back the object. -/
theorem SetSubResourceLabel_other (w : World) (obj : Unstructured)
    (h : hasPodTemplate obj = false) :
    SetSubResourceLabel w obj =
      some (obj, if GetKind obj = "BuildConfig" then
        logLine w "TODO: how to set label ownership for Builds and related Pods" else w) := by
  have h2 : ¬ (GetKind obj = "DaemonSet" ∨ GetKind obj = "Deployment" ∨
      GetKind obj = "StatefulSet") := by
    intro hk
    rw [(hasPodTemplate_iff obj).2 hk] at h
    cases h
  unfold SetSubResourceLabel
  simp only [h2, if_false]
  split <;> rfl

/-- On a kind with a pod template whose labels are not found SetSubResourceLabel ends the
process. -/
theorem SetSubResourceLabel_fatal (w : World) (obj : Unstructured)
    (h : hasPodTemplate obj = true)
    (hr : (NestedMap obj.Object templateLabels).isFound = false) :
    SetSubResourceLabel w obj = none := by
  have h2 := (hasPodTemplate_iff obj).1 h
  unfold SetSubResourceLabel
  simp only [h2, if_true]
  cases hn : NestedMap obj.Object templateLabels with
  | found v => rw [hn] at hr; cases hr
  | notFound => rfl
  | error => rfl

/-- On a kind with a pod template whose labels are found SetSubResourceLabel writes them
back with the marker; the write succeeds and nothing is logged. -/
theorem SetSubResourceLabel_template (w : World) (obj : Unstructured) (labels : ValueMap)
    (h : hasPodTemplate obj = true)
    (hr : NestedMap obj.Object templateLabels = Nested.found labels) :
    ∃ o, SetNestedMap obj.Object (mapSet labels owned (Value.str "true")) templateLabels =
        some o ∧ SetSubResourceLabel w obj = some (⟨o⟩, w) := by
  have h2 := (hasPodTemplate_iff obj).1 h
  have hget := (nestedMapNoCopy_found obj.Object templateLabels labels).1 hr
  have hs := set_succeeds_of_get (Value.map (mapSet labels owned (Value.str "true")))
    (Value.map labels) templateLabels obj.Object (by simp [templateLabels]) hget
  cases hset : setNestedFieldNoCopy (Value.map (mapSet labels owned (Value.str "true")))
      templateLabels obj.Object with
  | none => rw [hset] at hs; cases hs
  | some o =>
    refine ⟨o, hset, ?_⟩
    have hk : GetKind ⟨o⟩ = GetKind obj :=
      GetKind_congr ⟨o⟩ obj
        (set_frame _ "spec" "kind" ["template", "metadata", "labels"] obj.Object o hset
          (by decide))
    have hb : ¬ GetKind (⟨o⟩ : Unstructured) = "BuildConfig" := by
      rw [hk]
      rcases h2 with e | e | e <;> rw [e] <;> decide
    unfold SetSubResourceLabel
    simp only [h2, if_true, hr, OnErrorOrNotFound, SetNestedMap, hset, OnError, hb, if_false]

/-! ## Facts about the label propagator -/

theorem SetLabel_eq (w : World) (obj : Unstructured) :
    SetLabel w obj = SetSubResourceLabel w (withTopLabel obj) := by
  unfold SetLabel withTopLabel markedLabels
  cases GetLabels obj <;> rfl

/-- What SetLabels wrote sits under metadata.labels when metadata is missing or a map. -/
theorem SetLabels_raw (obj : Unstructured) (labels : StringMap)
    (h : metadataWritable obj = true) :
    NestedFieldNoCopy (Value.map (SetLabels obj labels).Object) ["metadata", "labels"] =
      Nested.found (Value.map (ofStringMap labels)) := by
  have hs : (setNestedFieldNoCopy (Value.map (ofStringMap labels)) ["metadata", "labels"]
      obj.Object).isSome = true := by
    unfold metadataWritable at h
    rw [setNestedFieldNoCopy]
    cases hg : mapGet obj.Object "metadata" with
    | none => simp [setNestedFieldNoCopy]
    | some x =>
      rw [hg] at h
      cases x <;> simp [setNestedFieldNoCopy] at h ⊢
  cases hset : setNestedFieldNoCopy (Value.map (ofStringMap labels)) ["metadata", "labels"]
      obj.Object with
  | none => rw [hset] at hs; cases hs
  | some o =>
    unfold SetLabels SetNestedStringMap
    rw [hset]
    exact get_after_set _ _ _ _ hset

theorem metadataWritable_congr (a b : Unstructured)
    (h : mapGet a.Object "metadata" = mapGet b.Object "metadata") :
    metadataWritable a = metadataWritable b := by
  unfold metadataWritable
  rw [h]

theorem hasPodTemplate_congr (a b : Unstructured)
    (h : mapGet a.Object "kind" = mapGet b.Object "kind") :
    hasPodTemplate a = hasPodTemplate b := by
  unfold hasPodTemplate
  rw [GetKind_congr a b h]

theorem NestedMap_template_congr (a b : Unstructured)
    (h : mapGet a.Object "spec" = mapGet b.Object "spec") :
    NestedMap a.Object templateLabels = NestedMap b.Object templateLabels := by
  unfold NestedMap nestedMapNoCopy templateLabels
  rw [NestedFieldNoCopy_congr a.Object b.Object "spec" _ h]

/-- The two ways SetSubResourceLabel completes: on a kind without a pod template with the
object itself, on a kind with one with the template labels written back. -/
theorem SetSubResourceLabel_result (w w2 : World) (a o : Unstructured)
    (h : SetSubResourceLabel w a = some (o, w2)) :
    (hasPodTemplate a = false ∧ o = a) ∨
      (hasPodTemplate a = true ∧ ∃ labels,
        NestedMap a.Object templateLabels = Nested.found labels ∧
        SetNestedMap a.Object (mapSet labels owned (Value.str "true")) templateLabels =
          some o.Object) := by
  cases hp : hasPodTemplate a with
  | false =>
    left
    rw [SetSubResourceLabel_other w a hp] at h
    simp only [Option.some.injEq, Prod.mk.injEq] at h
    exact ⟨rfl, h.1.symm⟩
  | true =>
    right
    refine ⟨rfl, ?_⟩
    cases hn : NestedMap a.Object templateLabels with
    | found labels =>
      obtain ⟨o2, hset, hres⟩ := SetSubResourceLabel_template w a labels hp hn
      rw [hres] at h
      simp only [Option.some.injEq, Prod.mk.injEq] at h
      refine ⟨labels, rfl, ?_⟩
      rw [hset, ← h.1]
    | notFound =>
      rw [SetSubResourceLabel_fatal w a hp (by rw [hn]; rfl)] at h
      cases h
    | error =>
      rw [SetSubResourceLabel_fatal w a hp (by rw [hn]; rfl)] at h
      cases h

/-- SetSubResourceLabel leaves every top-level key but spec as it was. -/
theorem SetSubResourceLabel_frame (w w2 : World) (a o : Unstructured)
    (h : SetSubResourceLabel w a = some (o, w2)) (k : String) (hk : k ≠ "spec") :
    mapGet o.Object k = mapGet a.Object k := by
  rcases SetSubResourceLabel_result w w2 a o h with ⟨_, e⟩ | ⟨_, labels, _, hset⟩
  · rw [e]
  · exact set_frame _ "spec" k ["template", "metadata", "labels"] a.Object o.Object hset hk

/-- SetSubResourceLabel gives back an object it has already completed on. -/
theorem SetSubResourceLabel_again (w w1 w2 : World) (a o : Unstructured)
    (h : SetSubResourceLabel w a = some (o, w2)) :
    ∃ w3, SetSubResourceLabel w1 o = some (o, w3) := by
  have hkind : hasPodTemplate o = hasPodTemplate a :=
    hasPodTemplate_congr o a (SetSubResourceLabel_frame w w2 a o h "kind" (by decide))
  rcases SetSubResourceLabel_result w w2 a o h with ⟨hp, _⟩ | ⟨hp, labels, _, hset⟩
  · rw [← hkind] at hp
    exact ⟨_, SetSubResourceLabel_other w1 o hp⟩
  · rw [← hkind] at hp
    have hget := get_after_set _ _ _ _ hset
    have hn : NestedMap o.Object templateLabels =
        Nested.found (mapSet labels owned (Value.str "true")) :=
      (nestedMapNoCopy_found _ _ _).2 hget
    obtain ⟨o2, hset2, hres⟩ := SetSubResourceLabel_template w1 o _ hp hn
    rw [mapSet_mapSet] at hset2
    have hsame := set_same _ templateLabels o.Object (by simp [templateLabels]) hget
    unfold SetNestedMap at hset2
    rw [hsame] at hset2
    simp only [Option.some.injEq] at hset2
    refine ⟨w1, ?_⟩
    rw [hres, ← hset2]

theorem markedLabels_marker (obj : Unstructured) :
    mapGet (markedLabels obj) owned = some "true" :=
  mapGet_mapSet_self _ _ _

/-- The labels GetLabels reads after SetLabel: the marked map when metadata is missing or
a map, nil otherwise. -/
theorem SetLabel_labels (w w2 : World) (obj o : Unstructured)
    (h : SetLabel w obj = some (o, w2)) :
    GetLabels o = if metadataWritable obj = true then some (markedLabels obj) else none := by
  rw [SetLabel_eq] at h
  have hf := SetSubResourceLabel_frame w w2 _ o h "metadata" (by decide)
  rw [GetLabels_congr o (withTopLabel obj) hf]
  unfold withTopLabel
  cases hm : metadataWritable obj with
  | true => simp [SetLabels_get obj _ hm]
  | false =>
    have hu := SetLabels_unwritable obj (markedLabels obj) hm
    rw [hu.1, hu.2]
    simp

/-- The first half of SetLabel changes nothing on an object SetLabel has completed on. -/
theorem withTopLabel_again (w w2 : World) (obj o : Unstructured)
    (h : SetLabel w obj = some (o, w2)) : withTopLabel o = o := by
  have hl := SetLabel_labels w w2 obj o h
  rw [SetLabel_eq] at h
  have hf := SetSubResourceLabel_frame w w2 _ o h "metadata" (by decide)
  cases hm : metadataWritable obj with
  | true =>
    rw [hm] at hl
    simp only [if_true] at hl
    have hraw := SetLabels_raw obj (markedLabels obj) hm
    have hraw2 : NestedFieldNoCopy (Value.map o.Object) ["metadata", "labels"] =
        Nested.found (Value.map (ofStringMap (markedLabels obj))) := by
      rw [NestedFieldNoCopy_congr o.Object (withTopLabel obj).Object "metadata" _ hf]
      exact hraw
    have hml : markedLabels o = markedLabels obj := by
      unfold markedLabels
      rw [hl]
      simp only [Option.getD_some]
      exact mapSet_mapSet _ _ _ _
    unfold withTopLabel SetLabels SetNestedStringMap
    rw [hml, set_same _ _ o.Object (by simp) hraw2]
  | false =>
    have hu := SetLabels_unwritable obj (markedLabels obj) hm
    have hmo : metadataWritable o = false := by
      rw [metadataWritable_congr o (withTopLabel obj) hf]
      unfold withTopLabel
      rw [hu.1]
      exact hm
    exact (SetLabels_unwritable o (markedLabels o) hmo).1

/-- SetLabel gives back an object it has already completed on. -/
theorem SetLabel_again (w w1 w2 : World) (obj o : Unstructured)
    (h : SetLabel w obj = some (o, w2)) : ∃ w3, SetLabel w1 o = some (o, w3) := by
  have ht := withTopLabel_again w w2 obj o h
  rw [SetLabel_eq] at h
  rw [SetLabel_eq, ht]
  exact SetSubResourceLabel_again w w1 w2 _ o h

/-- The kind, the pod template test and the template labels of an object are those of the
object after the first half of SetLabel. -/
theorem withTopLabel_template (obj : Unstructured) :
    GetKind (withTopLabel obj) = GetKind obj ∧
      hasPodTemplate (withTopLabel obj) = hasPodTemplate obj ∧
      NestedMap (withTopLabel obj).Object templateLabels =
        NestedMap obj.Object templateLabels := by
  have hk := SetLabels_frame obj (markedLabels obj) "kind" (by decide)
  have hs := SetLabels_frame obj (markedLabels obj) "spec" (by decide)
  exact ⟨GetKind_congr _ _ hk, hasPodTemplate_congr _ _ hk, NestedMap_template_congr _ _ hs⟩

/-- On a kind with a pod template SetSubResourceLabel ends the process exactly when the
template labels are not found. -/
theorem SetSubResourceLabel_none_iff (w : World) (a : Unstructured)
    (hp : hasPodTemplate a = true) :
    SetSubResourceLabel w a = none ↔ (NestedMap a.Object templateLabels).isFound = false := by
  constructor
  · intro h
    cases hn : NestedMap a.Object templateLabels with
    | found labels =>
      obtain ⟨o, _, hres⟩ := SetSubResourceLabel_template w a labels hp hn
      rw [hres] at h
      cases h
    | notFound => rfl
    | error => rfl
  · exact SetSubResourceLabel_fatal w a hp

/-- The three ways the claim names for a fatal end amount to the template labels not
being found, because the write-back cannot fail after the read succeeded. -/
theorem fatal_ways_iff (a : Unstructured) :
    (NestedMap a.Object templateLabels = Nested.notFound ∨
      NestedMap a.Object templateLabels = Nested.error ∨
      ∃ labels, NestedMap a.Object templateLabels = Nested.found labels ∧
        SetNestedMap a.Object (mapSet labels owned (Value.str "true")) templateLabels =
          none) ↔
      (NestedMap a.Object templateLabels).isFound = false := by
  constructor
  · rintro (h | h | ⟨labels, h, hset⟩)
    · rw [h]; rfl
    · rw [h]; rfl
    · have hget := (nestedMapNoCopy_found a.Object templateLabels labels).1 h
      have hs := set_succeeds_of_get (Value.map (mapSet labels owned (Value.str "true")))
        (Value.map labels) templateLabels a.Object (by simp [templateLabels]) hget
      unfold SetNestedMap at hset
      rw [hset] at hs
      cases hs
  · intro h
    cases hn : NestedMap a.Object templateLabels with
    | found labels => rw [hn] at h; cases h
    | notFound => exact Or.inl rfl
    | error => exact Or.inr (Or.inl rfl)

/-! ## The label propagator -/

/-- C14: for every object whose kind is DaemonSet, Deployment or StatefulSet,
SetSubResourceLabel, and with it SetLabel, ends the process if and only if the nested path
spec.template.metadata.labels is not found, or cannot be read as a map, or the write-back
fails; for an object of any other kind neither of the two ever ends the process. -/
theorem setSubResourceLabel_fatal_iff (w : World) (obj : Unstructured) :
    ((GetKind obj = "DaemonSet" ∨ GetKind obj = "Deployment" ∨
        GetKind obj = "StatefulSet") →
      (SetSubResourceLabel w obj = none ↔
        (NestedMap obj.Object templateLabels = Nested.notFound ∨
          NestedMap obj.Object templateLabels = Nested.error ∨
          ∃ labels, NestedMap obj.Object templateLabels = Nested.found labels ∧
            SetNestedMap obj.Object (mapSet labels owned (Value.str "true"))
              templateLabels = none)) ∧
      (SetLabel w obj = none ↔
        (NestedMap obj.Object templateLabels = Nested.notFound ∨
          NestedMap obj.Object templateLabels = Nested.error ∨
          ∃ labels, NestedMap obj.Object templateLabels = Nested.found labels ∧
            SetNestedMap obj.Object (mapSet labels owned (Value.str "true"))
              templateLabels = none))) ∧
    (¬ (GetKind obj = "DaemonSet" ∨ GetKind obj = "Deployment" ∨
        GetKind obj = "StatefulSet") →
      SetSubResourceLabel w obj ≠ none ∧ SetLabel w obj ≠ none) := by
  obtain ⟨_, hpt, hnt⟩ := withTopLabel_template obj
  constructor
  · intro hk
    have hp := (hasPodTemplate_iff obj).2 hk
    constructor
    · rw [fatal_ways_iff, SetSubResourceLabel_none_iff w obj hp]
    · rw [fatal_ways_iff, SetLabel_eq,
        SetSubResourceLabel_none_iff w _ (hpt.trans hp), hnt]
  · intro hk
    have hp : hasPodTemplate obj = false := by
      cases hh : hasPodTemplate obj with
      | false => rfl
      | true => exact absurd ((hasPodTemplate_iff obj).1 hh) hk
    constructor
    · rw [SetSubResourceLabel_other w obj hp]
      exact Option.some_ne_none _
    · rw [SetLabel_eq, SetSubResourceLabel_other w _ (hpt.trans hp)]
      exact Option.some_ne_none _

theorem setSubResourceLabel_fatal_iff_witness :
    SetSubResourceLabel freshWorld bareDeployment = none ∧
      SetLabel freshWorld bareDeployment = none ∧
      SetSubResourceLabel freshWorld plainConfigMap ≠ none ∧
      SetLabel freshWorld plainConfigMap ≠ none :=
  ⟨((setSubResourceLabel_fatal_iff freshWorld bareDeployment).1
      (Or.inr (Or.inl (by decide)))).1.2 (Or.inl rfl),
    ((setSubResourceLabel_fatal_iff freshWorld bareDeployment).1
      (Or.inr (Or.inl (by decide)))).2.2 (Or.inl rfl),
    ((setSubResourceLabel_fatal_iff freshWorld plainConfigMap).2 (by decide)).1,
    ((setSubResourceLabel_fatal_iff freshWorld plainConfigMap).2 (by decide)).2⟩

/-- C15: for every object whose kind is not DaemonSet, Deployment or StatefulSet, a
BuildConfig included, SetSubResourceLabel completes and gives back the very same object;
it issues no collaborator call and raises no warning. -/
theorem setSubResourceLabel_other_kind_unchanged (w : World) (obj : Unstructured)
    (h1 : GetKind obj ≠ "DaemonSet") (h2 : GetKind obj ≠ "Deployment")
    (h3 : GetKind obj ≠ "StatefulSet") :
    ∃ w2, SetSubResourceLabel w obj = some (obj, w2) ∧ w2.calls = w.calls ∧
      w2.warnings = w.warnings ∧ w2.Mode = w.Mode := by
  have hp : hasPodTemplate obj = false := by
    cases hh : hasPodTemplate obj with
    | false => rfl
    | true =>
      rcases (hasPodTemplate_iff obj).1 hh with e | e | e
      · exact absurd e h1
      · exact absurd e h2
      · exact absurd e h3
  refine ⟨_, SetSubResourceLabel_other w obj hp, ?_, ?_, ?_⟩ <;> split <;> rfl

theorem setSubResourceLabel_other_kind_unchanged_witness :
    GetKind buildConfig = "BuildConfig" ∧
      ∃ w2, SetSubResourceLabel freshWorld buildConfig = some (buildConfig, w2) ∧
        w2.calls = freshWorld.calls ∧ w2.warnings = freshWorld.warnings ∧
        w2.Mode = freshWorld.Mode :=
  ⟨by decide,
    setSubResourceLabel_other_kind_unchanged freshWorld buildConfig (by decide) (by decide)
      (by decide)⟩

/-- The results of the three entry points that only classify, by the two summaries. -/
theorem create_delete_generic_parts (c : Collaborators) (w : World) (obj : Object) :
    (CreateFunc w ⟨obj⟩).1 = (specialValue obj || ownedValue obj) ∧
      (DeleteFunc c w ⟨obj⟩).1 = (specialValue obj || ownedValue obj) ∧
      (GenericFunc w ⟨obj⟩).1 = (specialValue obj || ownedValue obj) := by
  refine ⟨?_, ?_, ?_⟩
  · simp only [CreateFunc]
    rw [← classify_result { w with Mode := "CREATE" } obj]
    split
    · rfl
    · split <;> rfl
  · simp only [DeleteFunc]
    rw [← classify_result { w with Mode := "DELETE" } obj]
    split
    · rfl
    · split <;> rfl
  · simp only [GenericFunc]
    rw [← classify_result { w with Mode := "GENERIC" } obj]
    split
    · rfl
    · split <;> rfl

/-- C13, as the claim states it, fails: for a Deployment without any labels, whose pod
template has no label map, SetLabel ends the process instead of producing an object; and
for an object of another kind whose metadata is null, SetLabel completes without the
top-level label being set. -/
theorem setLabel_without_labels_fails :
    (GetKind bareDeployment = "Deployment" ∧ GetLabels bareDeployment = none ∧
      (NestedMap bareDeployment.Object templateLabels).isFound = false ∧
      (SetLabel freshWorld bareDeployment).isSome = false) ∧
    (GetKind nullMetadataConfigMap = "ConfigMap" ∧ GetLabels nullMetadataConfigMap = none ∧
      Option.map (fun r => GetLabels r.1) (SetLabel freshWorld nullMetadataConfigMap) =
        some none) := by
  decide

/-- C13, amended: on an object whose metadata is missing or a map, SetLabel applied to a
Deployment, DaemonSet or StatefulSet whose nested path spec.template.metadata.labels holds
a map, possibly an empty one, completes with an object whose top-level labels are the
former ones, or none, with the marker set to true, and whose nested labels are the former
ones with the marker set to true; applied to an object of any other kind it completes
with the same top-level labels and leaves every top-level key but metadata, so also all
of spec, as it was. -/
theorem setLabel_marks (w : World) (obj : Unstructured) (hm : metadataWritable obj = true) :
    ((GetKind obj = "DaemonSet" ∨ GetKind obj = "Deployment" ∨
        GetKind obj = "StatefulSet") →
      ∀ labels, NestedMap obj.Object templateLabels = Nested.found labels →
        ∃ o w2, SetLabel w obj = some (o, w2) ∧
          GetLabels o = some (mapSet ((GetLabels obj).getD []) owned "true") ∧
          NestedMap o.Object templateLabels =
            Nested.found (mapSet labels owned (Value.str "true"))) ∧
    (¬ (GetKind obj = "DaemonSet" ∨ GetKind obj = "Deployment" ∨
        GetKind obj = "StatefulSet") →
      ∃ o w2, SetLabel w obj = some (o, w2) ∧
        GetLabels o = some (mapSet ((GetLabels obj).getD []) owned "true") ∧
        ∀ k, k ≠ "metadata" → mapGet o.Object k = mapGet obj.Object k) := by
  obtain ⟨_, hpt, hnt⟩ := withTopLabel_template obj
  constructor
  · intro hk labels hn
    have hp := (hasPodTemplate_iff obj).2 hk
    rw [← hnt] at hn
    obtain ⟨o, hset, hres⟩ :=
      SetSubResourceLabel_template w (withTopLabel obj) labels (hpt.trans hp) hn
    have hsl : SetLabel w obj = some (⟨o⟩, w) := by rw [SetLabel_eq, hres]
    refine ⟨⟨o⟩, w, hsl, ?_, ?_⟩
    · rw [SetLabel_labels w w obj ⟨o⟩ hsl, hm]
      rfl
    · exact (nestedMapNoCopy_found _ _ _).2 (get_after_set _ _ _ _ hset)
  · intro hk
    have hp : hasPodTemplate obj = false := by
      cases hh : hasPodTemplate obj with
      | false => rfl
      | true => exact absurd ((hasPodTemplate_iff obj).1 hh) hk
    have hres := SetSubResourceLabel_other w (withTopLabel obj) (hpt.trans hp)
    have hsl := hres
    rw [← SetLabel_eq] at hsl
    refine ⟨_, _, hsl, ?_, ?_⟩
    · rw [SetLabel_labels w _ obj _ hsl, hm]
      rfl
    · intro k hk2
      exact SetLabels_frame obj (markedLabels obj) k hk2

theorem setLabel_marks_witness :
    (∃ o w2, SetLabel freshWorld freshDeployment = some (o, w2) ∧
      GetLabels o = some [("specialresource.openshift.io/owned", "true")] ∧
      NestedMap o.Object templateLabels =
        Nested.found [("specialresource.openshift.io/owned", Value.str "true")]) ∧
    (∃ o w2, SetLabel freshWorld plainConfigMap = some (o, w2) ∧
      GetLabels o = some [("specialresource.openshift.io/owned", "true")] ∧
      ∀ k, k ≠ "metadata" → mapGet o.Object k = mapGet plainConfigMap.Object k) :=
  ⟨(setLabel_marks freshWorld freshDeployment (by decide)).1 (Or.inr (Or.inl (by decide)))
      [] rfl,
    (setLabel_marks freshWorld plainConfigMap (by decide)).2 (by decide)⟩

/-- C18, as the claim states it, fails: on a ConfigMap whose metadata is null SetLabel
completes, yet the object carries no label afterwards, so its view is not owned and the
Create entry point returns false for it. -/
theorem setLabel_null_metadata_not_owned :
    (SetLabel freshWorld nullMetadataConfigMap).isSome = true ∧
      Option.map (fun r => GetLabels r.1) (SetLabel freshWorld nullMetadataConfigMap) =
        some nullMetadataView.labels ∧
      (Owned freshWorld nullMetadataView).1 = false ∧
      (CreateFunc freshWorld ⟨nullMetadataView⟩).1 = false ∧
      (DeleteFunc hashingCollaborators freshWorld ⟨nullMetadataView⟩).1 = false ∧
      (GenericFunc freshWorld ⟨nullMetadataView⟩).1 = false := by
  decide

/-- C18, amended: for every object whose metadata is missing or a map and on which SetLabel
completes, every view of the marked object, that is every client.Object whose labels are
what GetLabels reads from it, is owned, and therefore the Create, Delete and Generic entry
points return true for it. -/
theorem setLabel_makes_owned (c : Collaborators) (w w1 w2 : World) (obj o : Unstructured)
    (view : Object) (hm : metadataWritable obj = true) (h : SetLabel w obj = some (o, w2))
    (hv : view.labels = GetLabels o) :
    (Owned w1 view).1 = true ∧ (CreateFunc w1 ⟨view⟩).1 = true ∧
      (DeleteFunc c w1 ⟨view⟩).1 = true ∧ (GenericFunc w1 ⟨view⟩).1 = true := by
  have hl := SetLabel_labels w w2 obj o h
  rw [hm] at hl
  simp only [if_true] at hl
  have ho : ownedValue view = true := by
    unfold ownedValue
    rw [hv, hl]
    simp only [mapFound_eq_isSome, markedLabels_marker, Option.isSome_some, Bool.or_true]
  have hcd := create_delete_generic_parts c w1 view
  rw [ho, Bool.or_true] at hcd
  exact ⟨(Owned_fst w1 view).trans ho, hcd.1, hcd.2.1, hcd.2.2⟩

theorem setLabel_makes_owned_witness :
    (Owned freshWorld markedConfigMapView).1 = true ∧
      (CreateFunc freshWorld ⟨markedConfigMapView⟩).1 = true ∧
      (DeleteFunc hashingCollaborators freshWorld ⟨markedConfigMapView⟩).1 = true ∧
      (GenericFunc freshWorld ⟨markedConfigMapView⟩).1 = true :=
  setLabel_makes_owned hashingCollaborators freshWorld freshWorld freshWorld plainConfigMap
    markedConfigMap markedConfigMapView (by decide) rfl (by decide)

theorem NestedFieldNoCopy_single (m : ValueMap) (k : String) :
    NestedFieldNoCopy (Value.map m) [k] =
      (match mapGet m k with
       | some v => Nested.found v
       | none => Nested.notFound) := by
  rw [NestedFieldNoCopy_map_cons]
  cases mapGet m k with
  | none => rfl
  | some v => exact NestedFieldNoCopy_nil v

/-- The entries of the template labels after SetSubResourceLabel completed: those of before
at every key but the marker; on a kind with a pod template the marker reads true. -/
theorem SetSubResourceLabel_entries (w w2 : World) (a o : Unstructured)
    (h : SetSubResourceLabel w a = some (o, w2)) :
    (∀ k, k ≠ owned →
      NestedFieldNoCopy (Value.map o.Object) (templateLabels ++ [k]) =
        NestedFieldNoCopy (Value.map a.Object) (templateLabels ++ [k])) ∧
    (hasPodTemplate a = true →
      NestedFieldNoCopy (Value.map o.Object) (templateLabels ++ [owned]) =
        Nested.found (Value.str "true")) := by
  rcases SetSubResourceLabel_result w w2 a o h with ⟨hp, e⟩ | ⟨hp, labels, hn, hset⟩
  · subst e
    refine ⟨fun _ _ => rfl, fun h2 => ?_⟩
    rw [hp] at h2
    cases h2
  · have hafter := get_after_set _ _ _ _ hset
    have hbefore := (nestedMapNoCopy_found a.Object templateLabels labels).1 hn
    constructor
    · intro k hk
      rw [NestedFieldNoCopy_append _ [k] _ _ hafter,
        NestedFieldNoCopy_append _ [k] _ _ hbefore, NestedFieldNoCopy_single,
        NestedFieldNoCopy_single, mapGet_mapSet_ne labels owned k _ hk]
    · intro _
      rw [NestedFieldNoCopy_append _ [owned] _ _ hafter, NestedFieldNoCopy_single,
        mapGet_mapSet_self]

theorem Nested.value_eq_some {α : Type} (r : Nested α) (v : α) (h : r.value = some v) :
    r = Nested.found v := by
  cases r with
  | found x =>
    simp only [Nested.value, Option.some.injEq] at h
    rw [h]
  | notFound => cases h
  | error => cases h

theorem mapGet_of_toStringMap (m : ValueMap) (l : StringMap) (k : String)
    (h : toStringMap m = some l) : mapGet m k = (mapGet l k).map Value.str := by
  induction m generalizing l with
  | nil =>
    simp only [toStringMap, Option.some.injEq] at h
    subst h
    rfl
  | cons kv rest ih =>
    obtain ⟨k1, x⟩ := kv
    cases x with
    | str s =>
      rw [toStringMap] at h
      cases hr : toStringMap rest with
      | none => rw [hr] at h; cases h
      | some l2 =>
        rw [hr] at h
        simp only [Option.some.injEq] at h
        subst h
        by_cases hk : k1 = k
        · simp [mapGet, hk]
        · simp [mapGet, hk, ih l2 hr]
    | null => simp [toStringMap] at h
    | bool b => simp [toStringMap] at h
    | int n => simp [toStringMap] at h
    | float b => simp [toStringMap] at h
    | list xs => simp [toStringMap] at h
    | map m2 => simp [toStringMap] at h

/-- A nested read that misses on a path misses on every longer path. -/
theorem NestedFieldNoCopy_append_miss (p q : List String) (x : Value)
    (h : (NestedFieldNoCopy x p).isFound = false) :
    (NestedFieldNoCopy x (p ++ q)).value = none := by
  induction p generalizing x with
  | nil =>
    rw [NestedFieldNoCopy_nil] at h
    cases h
  | cons f rest ih =>
    cases x with
    | map m =>
      rw [NestedFieldNoCopy_map_cons] at h
      rw [List.cons_append, NestedFieldNoCopy_map_cons]
      cases hg : mapGet m f with
      | none => rfl
      | some v =>
        rw [hg] at h
        exact ih v h
    | null => rfl
    | bool b => rfl
    | int n => rfl
    | float b => rfl
    | str s => rfl
    | list xs => rfl

/-- On an object whose label map holds strings only, the raw entry of a label key is what
GetLabels reads for the key. -/
theorem raw_label_value (obj : Unstructured) (k : String)
    (hs : labelsAreStrings obj = true) :
    (NestedFieldNoCopy (Value.map obj.Object) ["metadata", "labels", k]).value =
      (labelValue (GetLabels obj) k).map Value.str := by
  have hpath : ["metadata", "labels", k] = ["metadata", "labels"] ++ [k] := rfl
  rw [hpath]
  unfold labelsAreStrings nestedMapNoCopy at hs
  unfold GetLabels NestedStringMap nestedMapNoCopy
  cases hN : NestedFieldNoCopy (Value.map obj.Object) ["metadata", "labels"] with
  | notFound =>
    rw [NestedFieldNoCopy_append_miss _ [k] _ (by rw [hN]; rfl)]
    rfl
  | error =>
    rw [NestedFieldNoCopy_append_miss _ [k] _ (by rw [hN]; rfl)]
    rfl
  | found x =>
    rw [NestedFieldNoCopy_append _ [k] _ x hN]
    rw [hN] at hs
    cases x with
    | map m =>
      simp only at hs
      cases ht : toStringMap m with
      | none => rw [ht] at hs; cases hs
      | some l =>
        rw [NestedFieldNoCopy_single, mapGet_of_toStringMap m l k ht]
        simp only [ht, labelValue]
        cases mapGet l k <;> rfl
    | null => rfl
    | bool b => rfl
    | int n => rfl
    | float b => rfl
    | str s => rfl
    | list xs => rfl

theorem labelsAreStrings_congr (a b : Unstructured)
    (h : mapGet a.Object "metadata" = mapGet b.Object "metadata") :
    labelsAreStrings a = labelsAreStrings b := by
  unfold labelsAreStrings nestedMapNoCopy
  rw [NestedFieldNoCopy_congr a.Object b.Object "metadata" ["labels"] h]

/-- A raw entry under metadata.labels can only be found when metadata is a map. -/
theorem metadataWritable_of_raw (obj : Unstructured) (k : String) (v : Value)
    (h : NestedFieldNoCopy (Value.map obj.Object) ["metadata", "labels", k] =
      Nested.found v) : metadataWritable obj = true := by
  unfold metadataWritable
  rw [NestedFieldNoCopy_map_cons] at h
  cases hg : mapGet obj.Object "metadata" with
  | none => rfl
  | some x =>
    rw [hg] at h
    cases x with
    | map m => rfl
    | null => simp [NestedFieldNoCopy] at h
    | bool b => simp [NestedFieldNoCopy] at h
    | int n => simp [NestedFieldNoCopy] at h
    | float b => simp [NestedFieldNoCopy] at h
    | str s => simp [NestedFieldNoCopy] at h
    | list xs => simp [NestedFieldNoCopy] at h

/-- After SetLabel completed the label map holds strings only, if it did before or if
metadata is missing or a map. -/
theorem SetLabel_labelsAreStrings (w w2 : World) (obj o : Unstructured)
    (h : SetLabel w obj = some (o, w2))
    (hs : labelsAreStrings obj = true ∨ metadataWritable obj = true) :
    labelsAreStrings o = true := by
  rw [SetLabel_eq] at h
  have hf := SetSubResourceLabel_frame w w2 _ o h "metadata" (by decide)
  rw [labelsAreStrings_congr o (withTopLabel obj) hf]
  cases hm : metadataWritable obj with
  | true =>
    have hraw := SetLabels_raw obj (markedLabels obj) hm
    unfold labelsAreStrings withTopLabel
    rw [(nestedMapNoCopy_found _ _ _).2 hraw]
    simp [toStringMap_ofStringMap]
  | false =>
    rcases hs with hs | hs
    · unfold withTopLabel
      rw [(SetLabels_unwritable obj (markedLabels obj) hm).1]
      exact hs
    · rw [hm] at hs
      cases hs

/-- C19, as the claim states it, fails: on a ConfigMap whose labels hold a string under
app and a number under n, SetLabel completes and the entry of the label key app, which is
not the marker, is gone afterwards. -/
theorem setLabel_drops_labels_beside_non_string :
    (SetLabel freshWorld mixedLabelsConfigMap).isSome = true ∧
      NestedFieldNoCopy (Value.map mixedLabelsConfigMap.Object) ["metadata", "labels", "app"] =
        Nested.found (Value.str "x") ∧
      "app" ≠ owned ∧
      Option.map
        (fun r =>
          (NestedFieldNoCopy (Value.map r.1.Object) ["metadata", "labels", "app"]).isFound)
        (SetLabel freshWorld mixedLabelsConfigMap) = some false :=
  ⟨by decide, rfl, by decide, by decide⟩

/-- C19, amended: SetLabel is idempotent and preserves unrelated labels where the
top-level label map holds strings only.  For every object on which SetLabel completes:
if every value of metadata.labels is a string, the entry of every top-level label key
other than the marker is as before; what GetLabels reads for such a key is as before in
any case; every entry of the nested template labels other than the marker is as before;
a marker that was there on the object reads true afterwards, and so does the marker in the
template for the kinds with a pod template; and SetLabel applied to the result completes
with that very result. -/
theorem setLabel_idempotent_preserving (w w1 w2 : World) (obj o : Unstructured)
    (h : SetLabel w obj = some (o, w2)) :
    (labelsAreStrings obj = true → ∀ k, k ≠ owned →
      (NestedFieldNoCopy (Value.map o.Object) ["metadata", "labels", k]).value =
        (NestedFieldNoCopy (Value.map obj.Object) ["metadata", "labels", k]).value) ∧
    (∀ k, k ≠ owned → labelValue (GetLabels o) k = labelValue (GetLabels obj) k) ∧
    (∀ k, k ≠ owned →
      NestedFieldNoCopy (Value.map o.Object) (templateLabels ++ [k]) =
        NestedFieldNoCopy (Value.map obj.Object) (templateLabels ++ [k])) ∧
    (∀ v, NestedFieldNoCopy (Value.map obj.Object) ["metadata", "labels", owned] =
        Nested.found v →
      NestedFieldNoCopy (Value.map o.Object) ["metadata", "labels", owned] =
        Nested.found (Value.str "true")) ∧
    ((GetKind obj = "DaemonSet" ∨ GetKind obj = "Deployment" ∨
        GetKind obj = "StatefulSet") →
      NestedFieldNoCopy (Value.map o.Object) (templateLabels ++ [owned]) =
        Nested.found (Value.str "true")) ∧
    (∃ w3, SetLabel w1 o = some (o, w3)) := by
  have h0 := h
  have hl := SetLabel_labels w w2 obj o h
  have hagain := SetLabel_again w w1 w2 obj o h
  obtain ⟨_, hpt, _⟩ := withTopLabel_template obj
  rw [SetLabel_eq] at h
  obtain ⟨hkeep, hmark⟩ := SetSubResourceLabel_entries w w2 _ o h
  have hspec := SetLabels_frame obj (markedLabels obj) "spec" (by decide)
  have hread : ∀ k, k ≠ owned →
      labelValue (GetLabels o) k = labelValue (GetLabels obj) k := by
    intro k hk
    cases hm : metadataWritable obj with
    | true =>
      rw [hl, hm]
      simp only [if_true, labelValue, markedLabels]
      rw [mapGet_mapSet_ne _ owned k _ hk]
      cases GetLabels obj <;> rfl
    | false =>
      rw [hl, hm, (SetLabels_unwritable obj [] hm).2]
      rfl
  refine ⟨?_, hread, ?_, ?_, ?_, hagain⟩
  · intro hs k hk
    have hso := SetLabel_labelsAreStrings w w2 obj o h0 (Or.inl hs)
    rw [raw_label_value o k hso, raw_label_value obj k hs, hread k hk]
  · intro k hk
    rw [hkeep k hk]
    exact NestedFieldNoCopy_congr _ _ "spec" _ hspec
  · intro v hv
    have hm := metadataWritable_of_raw obj owned v hv
    have hso := SetLabel_labelsAreStrings w w2 obj o h0 (Or.inr hm)
    have hval := raw_label_value o owned hso
    rw [hl, hm] at hval
    simp only [if_true, labelValue, markedLabels_marker, Option.map_some'] at hval
    exact Nested.value_eq_some _ _ hval
  · intro hk
    exact hmark (hpt.trans ((hasPodTemplate_iff obj).2 hk))

theorem setLabel_idempotent_preserving_witness :
    labelsAreStrings markedDaemonSet = true ∧
      NestedFieldNoCopy (Value.map markedDaemonSet.Object) ["metadata", "labels", owned] =
        Nested.found (Value.str "false") ∧
      (∀ k, k ≠ owned →
        (NestedFieldNoCopy (Value.map markedDaemonSetDone.Object)
            ["metadata", "labels", k]).value =
          (NestedFieldNoCopy (Value.map markedDaemonSet.Object)
            ["metadata", "labels", k]).value) ∧
      NestedFieldNoCopy (Value.map markedDaemonSetDone.Object) ["metadata", "labels", owned] =
        Nested.found (Value.str "true") ∧
      NestedFieldNoCopy (Value.map markedDaemonSetDone.Object) (templateLabels ++ [owned]) =
        Nested.found (Value.str "true") ∧
      (∃ w3, SetLabel freshWorld markedDaemonSetDone = some (markedDaemonSetDone, w3)) :=
  ⟨by decide, rfl,
    (setLabel_idempotent_preserving freshWorld freshWorld freshWorld markedDaemonSet
      markedDaemonSetDone rfl).1 (by decide),
    (setLabel_idempotent_preserving freshWorld freshWorld freshWorld markedDaemonSet
      markedDaemonSetDone rfl).2.2.2.1 (Value.str "false") rfl,
    (setLabel_idempotent_preserving freshWorld freshWorld freshWorld markedDaemonSet
      markedDaemonSetDone rfl).2.2.2.2.1 (Or.inl (by decide)),
    (setLabel_idempotent_preserving freshWorld freshWorld freshWorld markedDaemonSet
      markedDaemonSetDone rfl).2.2.2.2.2⟩

end Filter
